import Mathlib

/-!
Verification of the YatraBackend Express/MySQL backend.

This file shallowly embeds the route handlers of the repository
(travelers, vehicles, vehicle allotments, settings, posts, check-ins,
announcements, sections, journals, itinerary) as executable Lean
functions over explicit database states, and proves or refutes the
specification claims about them.

JavaScript runtime values that flow through `JSON.stringify` /
`JSON.parse`, `parseFloat` and the settings store are modelled by the
inductive `JVal`.  JS numbers are carried as their decimal literal
(sign, integer digits, fraction digits): for every finite double,
`Number.prototype.toString` produces such a literal and `parseFloat`
maps it back to the same double, so identity of literals is a faithful
model of identity of finite JS numbers (exponent notation, used by JS
only for magnitudes outside [1e-6, 1e21), is not modelled).
-/

set_option maxHeartbeats 1000000

namespace Yatra

/-- The `{` character (written via its code point). -/
def lbrace : Char := Char.ofNat 123

/-- The `}` character (written via its code point). -/
def rbrace : Char := Char.ofNat 125

/-- Hex digit for a value < 16 (lower case, as JSON.stringify emits). -/
def hexDigit (n : Nat) : Char :=
  if n < 10 then Char.ofNat (48 + n) else Char.ofNat (97 + (n - 10))

/-- Value of a hex digit character, `none` if not a hex digit. -/
def hexVal (c : Char) : Option Nat :=
  if '0' ≤ c ∧ c ≤ '9' then some (c.toNat - 48)
  else if 'a' ≤ c ∧ c ≤ 'f' then some (c.toNat - 87)
  else if 'A' ≤ c ∧ c ≤ 'F' then some (c.toNat - 55)
  else none

mutual

/-- Model of a JavaScript/JSON value.  `jnum neg ip fp` is the decimal
literal `[-]ip[.fp]` (see the file header for why numbers are carried
as literals). -/
inductive JVal where
  | jnull : JVal
  | jbool (b : Bool) : JVal
  | jnum (neg : Bool) (ip : List Char) (fp : List Char) : JVal
  | jstr (s : String) : JVal
  | jarr (xs : JElems) : JVal
  | jobj (fs : JMembers) : JVal

/-- Elements of a JSON array. -/
inductive JElems where
  | nil : JElems
  | cons (v : JVal) (tl : JElems) : JElems

/-- Members of a JSON object (key/value pairs, in insertion order as JS
object literals preserve it). -/
inductive JMembers where
  | nil : JMembers
  | cons (k : String) (v : JVal) (tl : JMembers) : JMembers

end

mutual

/-- Well-formedness: number literals have a nonempty integer part and
digit-only parts (what `Number.prototype.toString` produces). -/
def JVal.wf : JVal → Bool
  | .jnull => true
  | .jbool _ => true
  | .jnum _ ip fp => !ip.isEmpty && ip.all Char.isDigit && fp.all Char.isDigit
  | .jstr _ => true
  | .jarr xs => xs.wf
  | .jobj fs => fs.wf

def JElems.wf : JElems → Bool
  | .nil => true
  | .cons v tl => v.wf && tl.wf

def JMembers.wf : JMembers → Bool
  | .nil => true
  | .cons _ v tl => v.wf && tl.wf

end

/-- JSON escaping of one character, as `JSON.stringify` does. -/
def escChar (c : Char) : List Char :=
  if c = '"' then ['\\', '"']
  else if c = '\\' then ['\\', '\\']
  else if c = '\n' then ['\\', 'n']
  else if c = '\r' then ['\\', 'r']
  else if c = '\t' then ['\\', 't']
  else if c.toNat < 32 then
    ['\\', 'u', '0', '0', hexDigit (c.toNat / 16), hexDigit (c.toNat % 16)]
  else [c]

/-- JSON escaping of a character list. -/
def escList : List Char → List Char
  | [] => []
  | c :: cs => escChar c ++ escList cs

/-- A JSON string literal (including the surrounding quotes). -/
def strLit (s : String) : List Char := '"' :: (escList s.data ++ ['"'])

mutual

/-- Serialization of a value, as `JSON.stringify` (which emits no
whitespace). -/
def JVal.ser : JVal → List Char
  | .jnull => ['n', 'u', 'l', 'l']
  | .jbool true => ['t', 'r', 'u', 'e']
  | .jbool false => ['f', 'a', 'l', 's', 'e']
  | .jnum neg ip fp =>
      (if neg then ['-'] else []) ++ ip ++ (if fp.isEmpty then [] else '.' :: fp)
  | .jstr s => strLit s
  | .jarr xs => '[' :: (xs.ser ++ [']'])
  | .jobj fs => lbrace :: (fs.ser ++ [rbrace])

def JElems.ser : JElems → List Char
  | .nil => []
  | .cons v .nil => v.ser
  | .cons v (.cons w tl) => v.ser ++ ',' :: (JElems.cons w tl).ser

def JMembers.ser : JMembers → List Char
  | .nil => []
  | .cons k v .nil => strLit k ++ ':' :: v.ser
  | .cons k v (.cons k2 w tl) =>
      strLit k ++ ':' :: v.ser ++ ',' :: (JMembers.cons k2 w tl).ser

end

/-- `JSON.stringify`. -/
def jsonStringify (v : JVal) : String := String.mk v.ser

/-- Scan a maximal prefix of decimal digits. -/
def scanDigits : List Char → List Char × List Char
  | [] => ([], [])
  | c :: cs =>
      if c.isDigit then
        let (ds, r) := scanDigits cs
        (c :: ds, r)
      else ([], c :: cs)

/-- Translate an escape character after a backslash (the simple escapes
JSON.parse accepts; `\u` is handled separately). -/
def unescChar (c : Char) : Option Char :=
  if c = '"' then some '"'
  else if c = '\\' then some '\\'
  else if c = '/' then some '/'
  else if c = 'n' then some '\n'
  else if c = 'r' then some '\r'
  else if c = 't' then some '\t'
  else if c = 'b' then some (Char.ofNat 8)
  else if c = 'f' then some (Char.ofNat 12)
  else none

/-- Parse the body of a JSON string literal up to and including the
closing quote, returning the decoded characters and the rest.  The fuel
bounds the number of decoded characters; callers pass the input length
plus one, which always suffices. -/
def parseStrBody : Nat → List Char → Option (List Char × List Char)
  | 0, _ => none
  | _ + 1, [] => none
  | fuel + 1, c :: cs =>
      if c = '"' then some ([], cs)
      else if c = '\\' then
        match cs with
        | [] => none
        | e :: cs2 =>
            if e = 'u' then
              match cs2 with
              | h1 :: h2 :: h3 :: h4 :: cs3 =>
                  match hexVal h1, hexVal h2, hexVal h3, hexVal h4 with
                  | some a, some b, some c3, some d =>
                      (parseStrBody fuel cs3).map
                        (fun p => (Char.ofNat (((a * 16 + b) * 16 + c3) * 16 + d) :: p.1, p.2))
                  | _, _, _, _ => none
              | _ => none
            else
              match unescChar e with
              | some c2 => (parseStrBody fuel cs2).map (fun p => (c2 :: p.1, p.2))
              | none => none
      else (parseStrBody fuel cs).map (fun p => (c :: p.1, p.2))

/-- Parse a JSON number literal (no exponent forms; see file header). -/
def parseNum (l : List Char) : Option (JVal × List Char) :=
  let (neg, l1) : Bool × List Char := match l with
    | c :: r => if c = '-' then (true, r) else (false, c :: r)
    | [] => (false, [])
  let (ip, l2) := scanDigits l1
  if ip.isEmpty then none
  else
    match l2 with
    | '.' :: l3 =>
        let (fp, l4) := scanDigits l3
        if fp.isEmpty then none else some (.jnum neg ip fp, l4)
    | _ => some (.jnum neg ip [], l2)

mutual

/-- Fuel-indexed JSON parser for one value (whitespace-free grammar,
matching what `JSON.stringify` emits; `JSON.parse` on the strings this
development feeds it — serialized values and e-mail addresses — does not
involve whitespace). -/
def parseVal : Nat → List Char → Option (JVal × List Char)
  | 0, _ => none
  | _ + 1, [] => none
  | fuel + 1, c :: cs =>
      if c = 'n' then
        match cs with
        | 'u' :: 'l' :: 'l' :: r => some (.jnull, r)
        | _ => none
      else if c = 't' then
        match cs with
        | 'r' :: 'u' :: 'e' :: r => some (.jbool true, r)
        | _ => none
      else if c = 'f' then
        match cs with
        | 'a' :: 'l' :: 's' :: 'e' :: r => some (.jbool false, r)
        | _ => none
      else if c = '"' then
        (parseStrBody (cs.length + 1) cs).map (fun p => (.jstr (String.mk p.1), p.2))
      else if c = '[' then
        match cs with
        | d :: r =>
            if d = ']' then some (.jarr .nil, r)
            else (parseElems fuel cs).map (fun p => (.jarr p.1, p.2))
        | [] => none
      else if c = lbrace then
        match cs with
        | d :: r =>
            if d = rbrace then some (.jobj .nil, r)
            else (parseMembers fuel cs).map (fun p => (.jobj p.1, p.2))
        | [] => none
      else parseNum (c :: cs)

/-- Parse one or more array elements followed by `]`. -/
def parseElems : Nat → List Char → Option (JElems × List Char)
  | 0, _ => none
  | fuel + 1, l =>
      match parseVal fuel l with
      | some (v, r) =>
          match r with
          | ',' :: r2 => (parseElems fuel r2).map (fun p => (.cons v p.1, p.2))
          | ']' :: r2 => some (.cons v .nil, r2)
          | _ => none
      | none => none

/-- Parse one or more object members followed by `}`. -/
def parseMembers : Nat → List Char → Option (JMembers × List Char)
  | 0, _ => none
  | fuel + 1, l =>
      match l with
      | '"' :: l1 =>
          match parseStrBody (l1.length + 1) l1 with
          | some (k, r1) =>
              match r1 with
              | ':' :: r2 =>
                  match parseVal fuel r2 with
                  | some (v, r3) =>
                      match r3 with
                      | ',' :: r4 =>
                          (parseMembers fuel r4).map
                            (fun p => (.cons (String.mk k) v p.1, p.2))
                      | d :: r4 =>
                          if d = rbrace then some (.cons (String.mk k) v .nil, r4)
                          else none
                      | [] => none
                  | none => none
              | _ => none
          | none => none
      | _ => none

end

/-- `JSON.parse` (throws = `none`); requires the whole input to be
consumed, as `JSON.parse` rejects trailing characters. -/
def jsonParse (s : String) : Option JVal :=
  match parseVal (s.data.length + 1) s.data with
  | some (v, []) => some v
  | _ => none

mutual

/-- Fuel needed by the parser on the serialization of a value. -/
def JVal.cost : JVal → Nat
  | .jarr xs => xs.cost + 1
  | .jobj fs => fs.cost + 1
  | _ => 1

def JElems.cost : JElems → Nat
  | .nil => 0
  | .cons v tl => max v.cost tl.cost + 1

def JMembers.cost : JMembers → Nat
  | .nil => 0
  | .cons _ v tl => max v.cost tl.cost + 1

end

/-- The characters a serialized value can start with. -/
def headOk (c : Char) : Bool :=
  c = 'n' || c = 't' || c = 'f' || c = '"' || c = '[' || c = lbrace ||
    c = '-' || c.isDigit

/-- A rest string that cannot extend a preceding number literal. -/
def goodRest : List Char → Bool
  | [] => true
  | c :: _ => !(c.isDigit || c = '.')

/-- The rest after a digit run must not begin with another digit. -/
def headNotDigit : List Char → Bool
  | [] => true
  | c :: _ => !c.isDigit

/-! ## JavaScript runtime primitives used by the route handlers -/

/-- JS truthiness of an optional string (absent, `null` and `""` are falsy). -/
def strTruthy : Option String → Bool
  | none => false
  | some s => !s.isEmpty

/-- Decimal digits of a natural number (fuel-indexed so that it reduces in
the kernel; the fuel `n + 1` always suffices). -/
def natDigitsAux : Nat → Nat → List Char
  | 0, _ => []
  | _ + 1, n =>
      if n < 10 then [Char.ofNat (48 + n)]
      else natDigitsAux n (n / 10) ++ [Char.ofNat (48 + n % 10)]

/-- Decimal digits of a natural number, as `String(n)` produces. -/
def natDigits (n : Nat) : List Char := natDigitsAux (n + 1) n

/-- Value of a list of decimal digits. -/
def digitsToNat (ds : List Char) : Nat :=
  ds.foldl (fun a c => a * 10 + (c.toNat - 48)) 0

/-- A natural number as a JS number value. -/
def natJ (n : Nat) : JVal := .jnum false (natDigits n) []

/-- JS whitespace for the purposes of `parseInt`/`parseFloat` trimming. -/
def isJsWs (c : Char) : Bool :=
  c = ' ' || c = '\t' || c = '\n' || c = '\r' ||
    c = Char.ofNat 11 || c = Char.ofNat 12

/-- Scan a maximal prefix of hex digits. -/
def scanHexDigits : List Char → List Char × List Char
  | [] => ([], [])
  | c :: cs =>
      if (hexVal c).isSome then
        let (ds, r) := scanHexDigits cs
        (c :: ds, r)
      else ([], c :: cs)

/-- Value of a list of hex digits. -/
def hexDigitsToNat (ds : List Char) : Nat :=
  ds.foldl (fun a c => a * 16 + (hexVal c).getD 0) 0

/-- JS `parseInt(s)` with no radix argument: trim leading whitespace, an
optional sign, auto-detect a `0x` prefix, then read a maximal digit run;
`none` models the `NaN` result. -/
def jsParseInt (s : String) : Option Int :=
  let l := s.data.dropWhile isJsWs
  let (neg, l1) : Bool × List Char := match l with
    | c :: r =>
        if c = '-' then (true, r)
        else if c = '+' then (false, r)
        else (false, c :: r)
    | [] => (false, [])
  let core : Option Nat := match l1 with
    | '0' :: c :: r =>
        if c = 'x' ∨ c = 'X' then
          let (ds, _) := scanHexDigits r
          if ds.isEmpty then none else some (hexDigitsToNat ds)
        else
          let (ds, _) := scanDigits l1
          some (digitsToNat ds)
    | _ =>
        let (ds, _) := scanDigits l1
        if ds.isEmpty then none else some (digitsToNat ds)
  core.map (fun n => if neg then -(n : Int) else (n : Int))

/-- JS `parseFloat(s)`: trim, optional sign, integer digits, optional
fraction digits; trailing junk is ignored; `none` models `NaN`.
Exponent forms are not modelled (see the file header). -/
def jsParseFloat (s : String) : Option (Bool × List Char × List Char) :=
  let l := s.data.dropWhile isJsWs
  let (neg, l1) : Bool × List Char := match l with
    | c :: r =>
        if c = '-' then (true, r)
        else if c = '+' then (false, r)
        else (false, c :: r)
    | [] => (false, [])
  let (ip, l2) := scanDigits l1
  match l2 with
  | '.' :: l3 =>
      let (fp, _) := scanDigits l3
      if ip.isEmpty && fp.isEmpty then none else some (neg, ip, fp)
  | _ => if ip.isEmpty then none else some (neg, ip, [])

/-- Number of days in a month (1-12) of a given year. -/
def daysInMonth (year month : Nat) : Nat :=
  if month = 2 then
    if year % 4 = 0 && (year % 100 ≠ 0 || year % 400 = 0) then 29 else 28
  else if month = 4 || month = 6 || month = 9 || month = 11 then 30
  else 31

/-- Whether a string is a valid ISO calendar date `YYYY-MM-DD`.  This is
the model of the JS runtime date check `!isNaN(new Date(v).getTime())`,
restricted to the ISO date strings the application exchanges. -/
def isoDateValid (s : String) : Bool :=
  match s.data with
  | [y1, y2, y3, y4, '-', m1, m2, '-', d1, d2] =>
      [y1, y2, y3, y4, m1, m2, d1, d2].all Char.isDigit &&
        (let month := digitsToNat [m1, m2]
         let day := digitsToNat [d1, d2]
         let year := digitsToNat [y1, y2, y3, y4]
         1 ≤ month && month ≤ 12 && 1 ≤ day && day ≤ daysInMonth year month)
  | _ => false

/-- `normalizeDate` of the vehicles router: falsy input gives `null`,
an unparsable date gives `null`, otherwise the `YYYY-MM-DD` form (an ISO
date input is already in that form). -/
def normalizeDate (v : Option String) : Option String :=
  match v with
  | none => none
  | some s => if s.isEmpty then none else if isoDateValid s then some s else none

/-- `normalizeDate` of the check-ins router: a falsy input defaults to
today (`new Date()`), an unparsable one gives `null`. -/
def normalizeDateOrToday (v : Option String) (today : String) : Option String :=
  match v with
  | none => some today
  | some s =>
      if s.isEmpty then some today
      else if isoDateValid s then some s else none

/-- Lookup of an object member, last occurrence winning, as JS property
access on an object built by `JSON.parse` behaves. -/
def lookupLast : JMembers → String → Option JVal
  | .nil, _ => none
  | .cons k v tl, key =>
      match lookupLast tl key with
      | some r => some r
      | none => if k == key then some v else none

/-- Build a JSON array of strings. -/
def strElems : List String → JElems
  | [] => .nil
  | s :: tl => .cons (.jstr s) (strElems tl)

/-- `Array.prototype.includes(email)` on a parsed JSON array (strict
equality: only string elements can match). -/
def elemsContainsStr : JElems → String → Bool
  | .nil, _ => false
  | .cons (.jstr s) tl, e => s == e || elemsContainsStr tl e
  | .cons _ tl, e => elemsContainsStr tl e

/-! ## Travelers (`routes/travelers.js`) -/

/-- The authenticated requester decoded from the JWT by the auth
middleware (`req.user`). -/
structure AuthUser where
  id : Nat
  email : String
  isAdmin : Bool
deriving DecidableEq

/-- A row of the `travelers` table (columns of `database-setup.sql`). -/
structure TravelerRow where
  id : Nat
  tirth_id : String
  first_name : String
  middle_name : String
  last_name : String
  email : String
  password_hash : String
  phone : Option String
  city : Option String
  country : String
  center : Option String
  birth_date : Option String
  age : Option Nat
  passport_no : Option String
  passport_issue_date : Option String
  passport_expiry_date : Option String
  nationality : String
  gender : String
  hoodi_size : Option String
  vehicle_id : Option Nat
  profile_line : Option String
  about_me : Option String
  image_url : Option String
  created_at : String
  updated_at : String

/-- A nullable string column as the JSON value the driver returns. -/
def optStr : Option String → JVal
  | none => .jnull
  | some s => .jstr s

/-- A nullable integer column as the JSON value the driver returns. -/
def optNat : Option Nat → JVal
  | none => .jnull
  | some n => natJ n

/-- The full column list of a traveler row, as the object a `SELECT *`
query yields (dates are carried as their `YYYY-MM-DD` strings). -/
def TravelerRow.fields (t : TravelerRow) : List (String × JVal) :=
  [("id", natJ t.id),
   ("tirth_id", .jstr t.tirth_id),
   ("first_name", .jstr t.first_name),
   ("middle_name", .jstr t.middle_name),
   ("last_name", .jstr t.last_name),
   ("email", .jstr t.email),
   ("password_hash", .jstr t.password_hash),
   ("phone", optStr t.phone),
   ("city", optStr t.city),
   ("country", .jstr t.country),
   ("center", optStr t.center),
   ("birth_date", optStr t.birth_date),
   ("age", optNat t.age),
   ("passport_no", optStr t.passport_no),
   ("passport_issue_date", optStr t.passport_issue_date),
   ("passport_expiry_date", optStr t.passport_expiry_date),
   ("nationality", .jstr t.nationality),
   ("gender", .jstr t.gender),
   ("hoodi_size", optStr t.hoodi_size),
   ("vehicle_id", optNat t.vehicle_id),
   ("profile_line", optStr t.profile_line),
   ("about_me", optStr t.about_me),
   ("image_url", optStr t.image_url),
   ("created_at", .jstr t.created_at),
   ("updated_at", .jstr t.updated_at)]

/-- The display name built by the handlers:
`` `${first} ${middle ? middle + ' ' : ''}${last}`.trim() ``. -/
def fullName (t : TravelerRow) : String :=
  (t.first_name ++ " " ++
    (if t.middle_name.isEmpty then "" else t.middle_name ++ " ") ++
    t.last_name).trim

/-- `formatTravelerData` (travelers.js lines 9-37): the explicit response
field list used by `GET /api/travelers/public` and `GET /api/travelers`;
`vehicleName`/`vehicleColor` come from the `LEFT JOIN vehicles`. -/
def formatTravelerData (t : TravelerRow)
    (vehicleName vehicleColor : Option String) : List (String × JVal) :=
  [("id", natJ t.id),
   ("tirthId", .jstr t.tirth_id),
   ("firstName", .jstr t.first_name),
   ("middleName", .jstr t.middle_name),
   ("lastName", .jstr t.last_name),
   ("name", .jstr (fullName t)),
   ("email", .jstr t.email),
   ("phone", optStr t.phone),
   ("city", optStr t.city),
   ("country", .jstr t.country),
   ("center", optStr t.center),
   ("birthDate", optStr t.birth_date),
   ("age", match t.age with
           | some n => if n = 0 then .jnull else .jstr (String.mk (natDigits n))
           | none => .jnull),
   ("passportNo", optStr t.passport_no),
   ("passportIssueDate", optStr t.passport_issue_date),
   ("passportExpiryDate", optStr t.passport_expiry_date),
   ("nationality", .jstr t.nationality),
   ("gender", .jstr t.gender),
   ("hoodiSize", optStr t.hoodi_size),
   ("vehicleId", optNat t.vehicle_id),
   ("profileLine", optStr t.profile_line),
   ("aboutMe", optStr t.about_me),
   ("image", .jstr (t.image_url.getD "")),
   ("vehicleName", optStr vehicleName),
   ("vehicleColor", optStr vehicleColor)]

/-- The response body of `GET /api/travelers/:id` on a found row:
`const { password_hash, ...travelerData } = traveler` followed by the
spread with `name` and `image` added. -/
def getTravelerByIdBody (t : TravelerRow) : List (String × JVal) :=
  (t.fields.filter (fun kv => kv.1 ≠ "password_hash")) ++
    [("name", .jstr (fullName t)), ("image", .jstr (t.image_url.getD ""))]

/-- A JWT produced by `jwt.sign(payload, secret, { expiresIn })`.
Modelled from the spec: the `jsonwebtoken` library is an external
dependency; the spec describes "a JWT verify/sign utility", so a signed
token is modelled as the record of its payload, signing secret and
expiry. -/
structure JwtToken where
  payloadId : Nat
  payloadEmail : String
  payloadIsAdmin : Bool
  secret : String
  expiresIn : String
deriving DecidableEq

/-- Result of `POST /api/travelers/login`. -/
inductive LoginResult where
  | err (status : Nat) (error : String)
  | ok (token : JwtToken) (traveler : List (String × JVal))
      (expiresIn : String)

/-- `POST /api/travelers/login` (travelers.js lines 291-345).
`bcryptCompare` abstracts `bcrypt.compare` (an external library);
`jwtSecret` is `process.env.JWT_SECRET`. -/
def postLogin (db : List TravelerRow) (bcryptCompare : String → String → Bool)
    (jwtSecret : Option String) (email password : Option String) :
    LoginResult :=
  if !strTruthy email || !strTruthy password then
    .err 400 "Email and password required"
  else
    let e := email.getD ""
    let p := password.getD ""
    match db.find? (fun t => t.email == e) with
    | none => .err 401 "Invalid email or password"
    | some t =>
        if !bcryptCompare p t.password_hash then
          .err 401 "Invalid email or password"
        else
          match jwtSecret with
          | none => .err 500 "Server configuration error"
          | some sec =>
              .ok ⟨t.id, t.email, false, sec, "7d"⟩
                ((t.fields.filter (fun kv => kv.1 ≠ "password_hash")) ++
                  [("name", .jstr (fullName t)),
                   ("image", .jstr (t.image_url.getD ""))])
                "7d"

/-! ## Posts (`routes/posts.js`) -/

/-- A row of the `posts` table.  `lat`/`lng` are carried as the decimal
strings the driver returns for `DECIMAL` columns; `created_at` is an
abstract timestamp. -/
structure PostRow where
  id : Nat
  author_email : String
  author_name : String
  author_image_url : String
  place : String
  location : String
  section_id : Option Nat
  description : String
  lat : Option String
  lng : Option String
  approved : Bool
  is_private : Bool
  created_at : Nat
deriving DecidableEq

/-- The WHERE clause built by `GET /api/posts` (posts.js lines 44-62):
non-admins are forced onto `approved = TRUE`; admins get the filter only
when the `approved` query parameter is present.  The `section` parameter
is bound into `p.section_id = ?` (carried here already coerced to the
integer MySQL compares against); `author` into `p.author_email = ?`. -/
def postsWhere (user : AuthUser) (approvedParam : Option String)
    (sectionParam : Option Nat) (authorParam : Option String)
    (p : PostRow) : Bool :=
  (if !user.isAdmin then p.approved == true
   else match approvedParam with
        | some a => p.approved == (a == "true")
        | none => true) &&
  (match sectionParam with
   | some sec => p.section_id == some sec
   | none => true) &&
  (match authorParam with
   | some a => p.author_email == a
   | none => true)

/-- `GET /api/posts`: filter, then `LIMIT ?` / `OFFSET ?` (an `OFFSET` is
bound only when a `LIMIT` is present).  The `ORDER BY created_at DESC`
is abstracted: rows keep database order. -/
def getPosts (user : AuthUser) (approvedParam : Option String)
    (sectionParam : Option Nat) (authorParam : Option String)
    (limit offset : Option Nat) (db : List PostRow) : List PostRow :=
  let base := db.filter (postsWhere user approvedParam sectionParam authorParam)
  match limit with
  | none => base
  | some l =>
      match offset with
      | none => base.take l
      | some o => (base.drop o).take l

/-- Result of `GET /api/posts/:id`. -/
inductive PostByIdRes where
  | err (status : Nat) (error : String)
  | ok (post : PostRow)
deriving DecidableEq

/-- `GET /api/posts/:id` (posts.js lines 238-294), up to the media/tags
joins of the success body. -/
def getPostById (user : AuthUser) (pid : Nat) (db : List PostRow) :
    PostByIdRes :=
  match db.find? (fun p => p.id == pid) with
  | none => .err 404 "Post not found"
  | some p =>
      if !user.isAdmin && !p.approved then .err 403 "Post not available"
      else .ok p

/-- A row of the `post_sections` table (what `getSectionId` queries). -/
structure SectionRow where
  id : Nat
  name : String
deriving DecidableEq

/-- The static name → id fallback mapping of `getSectionId`. -/
def sectionMap (s : String) : Option Nat :=
  if s = "temples" ∨ s = "temple" then some 1
  else if s = "experiences" ∨ s = "experience" then some 2
  else if s = "food" then some 3
  else if s = "travel" then some 4
  else if s = "accommodation" then some 5
  else if s = "culture" then some 6
  else if s = "nature" then some 7
  else if s = "scenic" then some 8
  else if s = "events" ∨ s = "event" then some 9
  else if s = "heritage" then some 10
  else none

/-- `getSectionId` of `POST /api/posts`: empty → null; numeric → the
number; otherwise a lookup in `post_sections` (by name, exact or
lower-cased) with the static mapping as fallback. -/
def getSectionId (sections : List SectionRow) (s : Option String) :
    Option Nat :=
  match s with
  | none => none
  | some str =>
      if str.isEmpty then none
      else
        match jsParseInt str with
        | some n => if n > 0 then some n.toNat else noSectionNum sections str
        | none => noSectionNum sections str
where
  noSectionNum (sections : List SectionRow) (str : String) : Option Nat :=
    match sections.find? (fun r => r.name == str ||
        r.name.toLower == str.toLower) with
    | some r => some r.id
    | none => sectionMap (str.toLower.trim)

/-- The body of `POST /api/posts` (legacy field names included). -/
structure CreatePostReq where
  authorEmail : Option String
  email : Option String
  authorName : Option String
  author : Option String
  authorImage : Option String
  place : Option String
  location : Option String
  -- `section` is a Lean keyword; the JS body field is named `section`
  section_ : Option String
  description : Option String
  approved : Option JVal
  isPrivate : Option JVal

/-- `approved !== undefined ? (approved === true || approved === 'true')
: false` — note there is no admin check here. -/
def finalApprovedOf : Option JVal → Bool
  | some (.jbool true) => true
  | some (.jstr s) => s == "true"
  | some _ => false
  | none => false

/-- Result of `POST /api/posts`. -/
inductive CreatePostRes where
  | err (status : Nat) (error : String)
  | created (status : Nat) (id : Nat) (approved : Bool) (isPrivate : Bool)
deriving DecidableEq

/-- First truthy of a chain `a || b || c` of optional strings. -/
def firstTruthy2 (a b : Option String) (c : String) : String :=
  if strTruthy a then a.getD "" else if strTruthy b then b.getD "" else c

/-- `POST /api/posts` (posts.js lines 297-571), up to the media and tag
inserts (which do not touch the posts row).  Returns the response and
the new `posts` table. -/
def createPost (user : AuthUser) (req : CreatePostReq)
    (sections : List SectionRow) (nextId : Nat) (db : List PostRow) :
    CreatePostRes × List PostRow :=
  let postAuthorEmail := firstTruthy2 req.authorEmail req.email user.email
  if !user.isAdmin && postAuthorEmail != user.email then
    (.err 403 "Access denied", db)
  else
    let finalAuthorEmail := firstTruthy2 req.authorEmail req.email ""
    let finalAuthorName := firstTruthy2 req.authorName req.author ""
    let finalSection := getSectionId sections req.section_
    let finalApproved := finalApprovedOf req.approved
    let finalIsPrivate :=
      match req.isPrivate with
      | some (.jbool true) => true
      | some (.jstr s) => s == "true"
      | some _ => false
      | none => false
    match finalSection with
    | some n =>
        if n > 0 then
          (.created 201 nextId finalApproved finalIsPrivate,
           db ++ [⟨nextId, finalAuthorEmail, finalAuthorName,
             req.authorImage.getD "", req.place.getD "", req.location.getD "",
             some n, req.description.getD "", none, none, finalApproved,
             finalIsPrivate, 0⟩])
        else (.err 400 "Invalid section", db)
    | none =>
        (.created 201 nextId finalApproved finalIsPrivate,
         db ++ [⟨nextId, finalAuthorEmail, finalAuthorName,
           req.authorImage.getD "", req.place.getD "", req.location.getD "",
           none, req.description.getD "", none, none, finalApproved,
           finalIsPrivate, 0⟩])

/-- The approval update of `PUT /api/posts/:id` (posts.js lines 609-613):
the `approved` body field is applied only for admins. -/
def putPostApprovedField (user : AuthUser) (bodyApproved : Option Bool)
    (old : Bool) : Bool :=
  match bodyApproved with
  | some b => if user.isAdmin then b else old
  | none => old

/-- `PATCH /api/posts/:id/approve` (admin-gated by `requireAdmin`):
the new value of the `approved` column. -/
def patchApproveValue (bodyApproved : Option JVal) : Bool :=
  match bodyApproved with
  | some (.jbool true) => true
  | some (.jstr s) => s == "true"
  | some (.jnum neg ip fp) => neg == false && ip == ['1'] && fp == []
  | some _ => false
  | none => false

/-! ## Check-ins (`routes/checkIns.js`) -/

/-- A row of the `check_ins` table (`checked_out_at` as an abstract
timestamp). -/
structure CheckInRow where
  id : Nat
  vehicle_id : Nat
  traveler_email : String
  traveler_id : Option Nat
  active : Bool
  checked_out_at : Option Nat
deriving DecidableEq

/-- The `check_ins` table with its `AUTO_INCREMENT` counter. -/
structure CheckInsDb where
  rows : List CheckInRow
  nextId : Nat
deriving DecidableEq

/-- Responses of the check-in endpoints. -/
inductive CheckInRes where
  | err (status : Nat) (error : String)
  | created (status : Nat) (id : Nat)
  | okMsg (message : String)
deriving DecidableEq

/-- Two rows violate the one-active-check-in rule when both are active
for the same (vehicle, traveler e-mail) pair. -/
def conflictCI (r s : CheckInRow) : Bool :=
  r.active && s.active && r.vehicle_id == s.vehicle_id &&
    r.traveler_email == s.traveler_email

/-- At most one active check-in per (vehicle, traveler e-mail) pair. -/
def noDupActive : List CheckInRow → Bool
  | [] => true
  | r :: rs => rs.all (fun s => !conflictCI r s) && noDupActive rs

/-- `POST /api/check-ins` (checkIns.js lines 488-544). -/
def postCheckIn (user : AuthUser) (vehicleId travelerEmail : Option String)
    (travelerId : Option Nat) (travelers : List TravelerRow)
    (db : CheckInsDb) : CheckInRes × CheckInsDb :=
  if !strTruthy vehicleId || !strTruthy travelerEmail then
    (.err 400 "Vehicle ID and traveler email required", db)
  else
    let te := travelerEmail.getD ""
    match jsParseInt (vehicleId.getD "") with
    | none => (.err 400 "Invalid vehicle ID", db)
    | some vid =>
        if vid ≤ 0 then (.err 400 "Invalid vehicle ID", db)
        else if !user.isAdmin && user.email != te then
          (.err 403 "Access denied", db)
        else
          match db.rows.find? (fun r => r.vehicle_id == vid.toNat &&
              r.traveler_email == te && r.active) with
          | some _ => (.err 400 "Already checked in", db)
          | none =>
              let tid : Option Nat :=
                match travelerId with
                | some t => some t
                | none => (travelers.find? (fun t => t.email == te)).map
                    (fun t => t.id)
              (.created 201 db.nextId,
               ⟨db.rows ++ [⟨db.nextId, vid.toNat, te, tid, true, none⟩],
                db.nextId + 1⟩)

/-- `POST /api/check-ins/:id/checkout` (checkIns.js lines 547-576); the
`:id` route parameter is carried already coerced to the integer MySQL
compares the `id` column against; `now` is `NOW()`. -/
def checkout (user : AuthUser) (cid : Nat) (now : Nat) (db : CheckInsDb) :
    CheckInRes × CheckInsDb :=
  match db.rows.find? (fun r => r.id == cid) with
  | none => (.err 404 "Check-in not found", db)
  | some r =>
      if !user.isAdmin && r.traveler_email != user.email then
        (.err 403 "Access denied", db)
      else
        (.okMsg "Checked out successfully",
         ⟨db.rows.map (fun r2 =>
            if r2.id == cid then
              { r2 with active := false, checked_out_at := some now }
            else r2),
          db.nextId⟩)

/-- A row of the day-wise `vehicle_allotments` table.

Modelled from the spec: the repository ships no `CREATE TABLE` for
`vehicle_allotments` (only the routes that `INSERT ... ON DUPLICATE KEY
UPDATE vehicle_id = VALUES(vehicle_id)` into it); the spec calls an
Allotment "a day-specific traveler-to-vehicle ... assignment", so the
table is modelled with a unique key on `(date, traveler_id)`, which is
what makes the upsert replace the vehicle of an existing (date,
traveler) row.  Ids are `Int` because the route binds whatever
`parseInt` produced, including negatives. -/
structure AllotmentRow where
  date : String
  traveler_id : Int
  vehicle_id : Int
deriving DecidableEq

/-- `INSERT INTO vehicle_allotments ... ON DUPLICATE KEY UPDATE
vehicle_id = VALUES(vehicle_id)` under the modelled unique key on
`(date, traveler_id)`. -/
def upsertAllotment (db : List AllotmentRow) (d : String) (tid vid : Int) :
    List AllotmentRow :=
  if db.any (fun a => a.date == d && a.traveler_id == tid) then
    db.map (fun a =>
      if a.date == d && a.traveler_id == tid then
        { a with vehicle_id := vid }
      else a)
  else db ++ [⟨d, tid, vid⟩]

/-- `POST /api/vehicles/allotments` (the vehicles router, lines
100-126): normalize the date, `parseInt` both ids, reject if any is
missing/unparsable, then upsert. -/
def postAllotment (dateP travelerP vehicleP : Option String)
    (db : List AllotmentRow) : (Nat × String) × List AllotmentRow :=
  let nd := normalizeDate dateP
  let t : Option Int := match travelerP with
    | none => none
    | some s => jsParseInt s
  let v : Option Int := match vehicleP with
    | none => none
    | some s => jsParseInt s
  match nd, t, v with
  | some d, some tid, some vid =>
      ((201, "Vehicle allotment saved successfully"),
       upsertAllotment db d tid vid)
  | _, _, _ => ((400, "date, travelerId and vehicleId are required"), db)

/-- No two allotment rows for the same (date, traveler) pair. -/
def uniquePairs : List AllotmentRow → Bool
  | [] => true
  | a :: rest =>
      rest.all (fun b => !(a.date == b.date && a.traveler_id == b.traveler_id))
        && uniquePairs rest

/-- The body of `GET /api/check-ins/my-status` (`vehicleId` is a JS
number, so an `Int` here: the route binds whatever the tables hold). -/
structure MyStatusBody where
  vehicleId : Option Int
  active : Bool
  checkedIn : List String
  isCheckedIn : Bool
deriving DecidableEq

/-- The safe default the handler returns from its catch block. -/
def safeDefault : MyStatusBody := ⟨none, false, [], false⟩

/-- `GET /api/check-ins/my-status` (checkIns.js lines 223-323).  The
queries run in program order; `failAt = some i` makes the i-th query
slot throw if it is reached (0 = traveler lookup, 1 = day-allotment
lookup, 2-5 = the check-in queries), landing in the catch block.  The
third component records whether an exception occurred. -/
def myStatus (user : AuthUser) (dateParam : Option String) (today : String)
    (travelers : List TravelerRow) (allots : List AllotmentRow)
    (checkIns : List CheckInRow) (failAt : Option Nat) :
    Nat × MyStatusBody × Bool :=
  if failAt == some 0 then (200, safeDefault, true)
  else
    let traveler? := travelers.find? (fun t => t.email == user.email)
    let targetDate := normalizeDateOrToday dateParam today
    let wantAllot : Bool :=
      (match traveler? with
       | some t => decide (t.id ≠ 0)
       | none => false) && targetDate.isSome
    if failAt == some 1 && wantAllot then (200, safeDefault, true)
    else
      let dayVehicle : Option Int :=
        if wantAllot then
          match traveler?, targetDate with
          | some t, some d =>
              match allots.find? (fun a =>
                  a.traveler_id == (t.id : Int) && a.date == d) with
              | some a =>
                  if a.vehicle_id ≠ 0 then some a.vehicle_id else none
              | none => none
          | _, _ => none
        else none
      let vehicleId : Option Int :=
        match dayVehicle with
        | some v => some v
        | none =>
            match traveler? with
            | some t =>
                match t.vehicle_id with
                | some v => if v ≠ 0 then some (v : Int) else none
                | none => none
            | none => none
      match vehicleId with
      | none => (200, ⟨none, false, [], false⟩, false)
      | some vid =>
          if failAt == some 2 || failAt == some 3 || failAt == some 4 ||
              failAt == some 5 then (200, safeDefault, true)
          else
            let checkIn? := checkIns.find? (fun c =>
                (c.vehicle_id : Int) == vid &&
                c.traveler_email == user.email && c.active)
            (200,
             ⟨some vid, true,
              (match checkIn? with
               | some _ => [user.email]
               | none => []),
              checkIn?.isSome⟩,
             false)

/-- A concrete traveler row with a base vehicle (vehicle 2) used to
exercise the my-status route on concrete data. -/
def trav10 : TravelerRow :=
  ⟨7, "T007", "Ravi", "", "Shah", "ravi@example.com", "hash:pw7", none, none,
   "India", none, none, none, none, none, none, "Indian", "Male", none,
   some 2, none, none, none, "2025-01-01", "2025-01-01"⟩

/-! ## Settings (`routes/settings.js`) -/

/-- A row of the `settings` table (`setting_key` is `UNIQUE`). -/
structure SettingRow where
  setting_key : String
  setting_value : String
  setting_type : String
deriving DecidableEq

/-- The storage conversion of `PUT /api/settings/:key` (settings router
lines 394-428): `typeof`-dispatch to a string value and an inferred type
tag.  `JSON.stringify` and the `toString` of numbers and booleans are
the modelled serializers (a number serializes to its decimal literal). -/
def settingStore (value : JVal) (typeParam : Option String) :
    String × String :=
  match value with
  | .jobj _ => (jsonStringify value, "json")
  | .jarr _ => (jsonStringify value, "json")
  | .jnull => (jsonStringify value, "json")
  | .jbool b => (if b then "true" else "false", "boolean")
  | .jnum neg ip fp => (jsonStringify (.jnum neg ip fp), "number")
  | .jstr s => (s, typeParam.getD "string")

/-- `INSERT ... ON DUPLICATE KEY UPDATE` on the `UNIQUE setting_key`. -/
def putSettingRows (db : List SettingRow) (key sv st : String) :
    List SettingRow :=
  if db.any (fun r => r.setting_key == key) then
    db.map (fun r =>
      if r.setting_key == key then ⟨key, sv, st⟩ else r)
  else db ++ [⟨key, sv, st⟩]

/-- `PUT /api/settings/:key`. -/
def putSetting (key : String) (value : JVal) (typeParam : Option String)
    (db : List SettingRow) : List SettingRow :=
  let (sv, st) := settingStore value typeParam
  putSettingRows db key sv st

/-- The parse-back dispatch shared verbatim by `formatSettings`,
`GET /api/settings/:key` and `GET /api/settings/public/:key`: `number` →
`parseFloat`, `boolean` → `=== 'true' || === '1'`, `json` →
`JSON.parse` with the raw string as fallback.  `none` encodes the JS
`NaN` that `parseFloat` returns on a non-numeric string, which has no
`JVal` representation. -/
def formatSettingValue (row : SettingRow) : Option JVal :=
  if row.setting_type == "number" then
    (jsParseFloat row.setting_value).map
      (fun p => .jnum p.1 p.2.1 p.2.2)
  else if row.setting_type == "boolean" then
    some (.jbool (row.setting_value == "true" || row.setting_value == "1"))
  else if row.setting_type == "json" then
    match jsonParse row.setting_value with
    | some v => some v
    | none => some (.jstr row.setting_value)
  else some (.jstr row.setting_value)

/-- `GET /api/settings/:key` and `GET /api/settings/public/:key` (two
textually identical handlers): `{ key, value, type }` on a found row. -/
def getSetting (key : String) (db : List SettingRow) :
    Option (String × Option JVal × String) :=
  (db.find? (fun r => r.setting_key == key)).map
    (fun r => (r.setting_key, formatSettingValue r, r.setting_type))

/-! ## Announcements (`routes/announcements.js`, current version) -/

/-- A row of the `announcements` table (`scheduled_time` as an abstract
timestamp). -/
structure AnnRow where
  recipient_type : String
  recipient_value : Option String
  message : String
  display_type : String
  timing_type : String
  scheduled_time : Option Nat
  sent : Bool
deriving DecidableEq

/-- The body of `POST /api/announcements` (`scheduledTime` carried as
the timestamp the `new Date(...)` conversion yields). -/
structure AnnReq where
  recipientType : Option String
  recipientValue : Option String
  message : Option String
  displayType : Option String
  timingType : Option String
  scheduledTime : Option Nat
  recipients : Option (List String)

/-- `String.prototype.trim()`: strip whitespace from both ends. -/
def jsTrim (s : String) : String :=
  String.mk (((s.data.dropWhile isJsWs).reverse.dropWhile isJsWs).reverse)

/-- `recipientValue || (recipients && recipients[0]) || null`. -/
def firstTruthyRecipient (rv : Option String)
    (rs : Option (List String)) : Option String :=
  if strTruthy rv then rv
  else
    match rs with
    | some (h :: _) => if h.isEmpty then none else some h
    | _ => none

/-- The `{type: 'ALL_GROUP_LEADERS', recipients}` marker object the
handler stores for all-group-leaders announcements. -/
def glFullJson (rs : List String) : String :=
  jsonStringify (.jobj (.cons "type" (.jstr "ALL_GROUP_LEADERS")
    (.cons "recipients" (.jarr (strElems rs)) .nil)))

/-- The `{type, count, sample}` fallback when the full list exceeds the
`VARCHAR(255)` column. -/
def glSampleJson (rs : List String) : String :=
  jsonStringify (.jobj (.cons "type" (.jstr "ALL_GROUP_LEADERS")
    (.cons "count" (natJ rs.length)
      (.cons "sample" (.jarr (strElems (rs.take 5))) .nil))))

/-- `POST /api/announcements` (announcements router lines 430-590). -/
def postAnnouncement (req : AnnReq) : Except (Nat × String) AnnRow :=
  if !strTruthy req.message || !strTruthy req.recipientType then
    .error (400, "Missing required fields: message, recipientType")
  else
    let rt := req.recipientType.getD ""
    let msg := req.message.getD ""
    let dbRecipientType :=
      if rt == "by-vehicle" then "specific-vehicle"
      else if rt == "all-group-leaders" || rt == "specific-group-leader" then
        "specific-traveler"
      else rt
    if !(dbRecipientType == "all-travelers" ||
        dbRecipientType == "specific-vehicle" ||
        dbRecipientType == "specific-traveler") then
      .error (400, "Invalid recipient type")
    else
      let recipientValueToStore : Option String :=
        if rt == "all-travelers" then some "ALL_TRAVELERS"
        else if rt == "all-group-leaders" then
          match req.recipients with
          | some rs =>
              if !rs.isEmpty then
                let j := glFullJson rs
                if j.length > 255 then
                  let j2 := glSampleJson rs
                  if j2.length > 255 then some "ALL_GROUP_LEADERS" else some j2
                else some j
              else some "ALL_GROUP_LEADERS"
          | none => some "ALL_GROUP_LEADERS"
        else if rt == "specific-group-leader" then
          firstTruthyRecipient req.recipientValue req.recipients
        else if rt == "specific-traveler" then
          firstTruthyRecipient req.recipientValue req.recipients
        else if strTruthy req.recipientValue then req.recipientValue
        else none
      if (jsTrim msg).isEmpty then .error (400, "Message cannot be empty")
      else
        let finalDisplayType :=
          match req.displayType with
          | some d =>
              if d == "notification" || d == "banner" || d == "modal" then d
              else "notification"
          | none => "notification"
        let finalTimingType :=
          match req.timingType with
          | some t =>
              if t == "instant" || t == "scheduled" then t else "instant"
          | none => "instant"
        let finalScheduledTime :=
          if finalTimingType == "scheduled" then req.scheduledTime else none
        .ok ⟨dbRecipientType, recipientValueToStore, jsTrim msg,
          finalDisplayType, finalTimingType, finalScheduledTime, false⟩

/-- The e-mail gate of `GET /api/announcements/user/:email`:
`/^[^\s@]+@[^\s@]+\.[^\s@]+$/` — no whitespace, exactly one `@` with a
nonempty local part, and a dot strictly inside the part after the
`@`. -/
def emailOk (s : String) : Bool :=
  let l := s.data
  l.all (fun c => !isJsWs c) &&
    l.count '@' == 1 &&
    (let a := l.takeWhile (fun c => c ≠ '@')
     let b := (l.dropWhile (fun c => c ≠ '@')).drop 1
     !a.isEmpty && ((b.drop 1).dropLast).contains '.')

/-- A vehicle row (the columns the embedded handlers read). -/
structure VehicleRow where
  id : Nat
  name : String
  capacity : Nat
  group_leader_email : Option String
  group_leader_name : Option String
  status : String
deriving DecidableEq

/-- The per-announcement delivery decision of
`GET /api/announcements/user/:email` (lines 360-409). -/
def shouldReceive (a : AnnRow) (email : String) (userVehicleId : Option Nat)
    (isGroupLeader : Bool) : Bool :=
  if a.recipient_type == "all-travelers" then
    match a.recipient_value with
    | none => true
    | some v => v == "ALL_TRAVELERS" || v == "null" || v == ""
  else if a.recipient_type == "specific-traveler" then
    match a.recipient_value with
    | none => false
    | some v =>
        if v == "ALL_GROUP_LEADERS" then isGroupLeader
        else
          match jsonParse v with
          | some (.jobj fs) =>
              match lookupLast fs "type" with
              | some (.jstr t) =>
                  if t == "ALL_GROUP_LEADERS" then
                    match lookupLast fs "recipients" with
                    | some (.jarr rs) =>
                        isGroupLeader && elemsContainsStr rs email
                    | _ =>
                        match lookupLast fs "sample" with
                        | some (.jarr _) => isGroupLeader
                        | _ => isGroupLeader
                  else v == email
              | _ => v == email
          | _ => v == email
  else if a.recipient_type == "specific-vehicle" then
    match userVehicleId, a.recipient_value with
    | some uv, some v =>
        if uv ≠ 0 && !v.isEmpty then
          match jsParseInt v with
          | some av => av == (uv : Int)
          | none => false
        else false
    | _, _ => false
  else false

/-- Whether an announcement is pending: unsent, and instant or due. -/
def pendingB (a : AnnRow) (now : Nat) : Bool :=
  !a.sent && (a.timing_type == "instant" ||
    (a.timing_type == "scheduled" &&
      (match a.scheduled_time with
       | some t => decide (t ≤ now)
       | none => false)))

/-- `GET /api/announcements/user/:email` (announcements router lines
326-427). -/
def getUserAnnouncements (email : String) (travelers : List TravelerRow)
    (vehicles : List VehicleRow) (anns : List AnnRow) (now : Nat) :
    Except (Nat × String) (List AnnRow) :=
  if !emailOk email then .error (400, "Invalid email format")
  else
    let traveler? := travelers.find? (fun t => t.email == email)
    let userVehicleId : Option Nat :=
      match traveler? with
      | some t => t.vehicle_id
      | none => none
    let isGroupLeader :=
      (vehicles.find? (fun v => v.group_leader_email == some email)).isSome
    .ok ((anns.filter (fun a => pendingB a now)).filter
      (fun a => shouldReceive a email userVehicleId isGroupLeader))

/-! ## Route table and middleware pipeline (server.js and all routers) -/

/-- The two auth middlewares the routers attach. -/
inductive Mw where
  | auth
  | admin
deriving DecidableEq

/-- One `router.METHOD(path, ...middlewares, handler)` registration.
`runsSql` records whether the handler body executes SQL queries (every
handler in this code base does). -/
structure RouteSpec where
  modName : String
  method : String
  path : String
  mws : List Mw
  runsSql : Bool
deriving DecidableEq

/-- Every route registration of the route modules present in the
repository (travelers.js, the vehicles router with day-wise allotments,
the settings router, posts.js, checkIns.js, itinerary.js, sections.js,
journals.js, and the current announcements router). -/
def routeTable : List RouteSpec :=
  [⟨"travelers", "GET", "/public", [.auth], true⟩,
   ⟨"travelers", "GET", "/", [.auth, .admin], true⟩,
   ⟨"travelers", "GET", "/:id", [.auth], true⟩,
   ⟨"travelers", "GET", "/email/:email", [.auth], true⟩,
   ⟨"travelers", "POST", "/", [.auth, .admin], true⟩,
   ⟨"travelers", "PUT", "/:id", [.auth], true⟩,
   ⟨"travelers", "DELETE", "/:id", [.auth, .admin], true⟩,
   ⟨"travelers", "POST", "/login", [], true⟩,
   ⟨"vehicles", "GET", "/", [.auth], true⟩,
   ⟨"vehicles", "GET", "/allotments", [.auth], true⟩,
   ⟨"vehicles", "POST", "/allotments", [.auth, .admin], true⟩,
   ⟨"vehicles", "POST", "/allotments/bulk", [.auth, .admin], true⟩,
   ⟨"vehicles", "DELETE", "/allotments", [.auth, .admin], true⟩,
   ⟨"vehicles", "GET", "/:id", [.auth], true⟩,
   ⟨"vehicles", "POST", "/", [.auth, .admin], true⟩,
   ⟨"vehicles", "PUT", "/:id", [.auth, .admin], true⟩,
   ⟨"vehicles", "DELETE", "/:id", [.auth, .admin], true⟩,
   ⟨"vehicles", "POST", "/:id/location", [.auth], true⟩,
   ⟨"settings", "GET", "/public", [], true⟩,
   ⟨"settings", "GET", "/public/:key", [], true⟩,
   ⟨"settings", "GET", "/", [.auth, .admin], true⟩,
   ⟨"settings", "GET", "/:key", [.auth, .admin], true⟩,
   ⟨"settings", "PUT", "/:key", [.auth, .admin], true⟩,
   ⟨"settings", "PUT", "/", [.auth, .admin], true⟩,
   ⟨"posts", "GET", "/", [.auth], true⟩,
   ⟨"posts", "GET", "/:id", [.auth], true⟩,
   ⟨"posts", "POST", "/", [.auth], true⟩,
   ⟨"posts", "PUT", "/:id", [.auth], true⟩,
   ⟨"posts", "DELETE", "/:id", [.auth], true⟩,
   ⟨"posts", "PATCH", "/:id/approve", [.auth, .admin], true⟩,
   ⟨"check-ins", "GET", "/", [.auth, .admin], true⟩,
   ⟨"check-ins", "GET", "/my-status", [.auth], true⟩,
   ⟨"check-ins", "GET", "/vehicle/:vehicleId", [.auth, .admin], true⟩,
   ⟨"check-ins", "POST", "/", [.auth], true⟩,
   ⟨"check-ins", "POST", "/:id/checkout", [.auth], true⟩,
   ⟨"check-ins", "DELETE", "/vehicle/:vehicleId", [.auth, .admin], true⟩,
   ⟨"itinerary", "GET", "/", [.auth], true⟩,
   ⟨"itinerary", "GET", "/:id", [.auth], true⟩,
   ⟨"itinerary", "POST", "/", [.auth, .admin], true⟩,
   ⟨"itinerary", "PUT", "/:id", [.auth, .admin], true⟩,
   ⟨"itinerary", "DELETE", "/:id", [.auth, .admin], true⟩,
   ⟨"sections", "GET", "/", [.auth], true⟩,
   ⟨"sections", "GET", "/:id", [.auth], true⟩,
   ⟨"sections", "POST", "/", [.auth, .admin], true⟩,
   ⟨"sections", "PUT", "/:id", [.auth, .admin], true⟩,
   ⟨"sections", "DELETE", "/:id", [.auth, .admin], true⟩,
   ⟨"journals", "GET", "/", [.auth], true⟩,
   ⟨"journals", "GET", "/:id", [.auth], true⟩,
   ⟨"journals", "POST", "/", [.auth], true⟩,
   ⟨"journals", "PUT", "/:id", [.auth], true⟩,
   ⟨"journals", "DELETE", "/:id", [.auth], true⟩,
   ⟨"announcements", "GET", "/", [.auth, .admin], true⟩,
   ⟨"announcements", "GET", "/pending", [], true⟩,
   ⟨"announcements", "GET", "/user/:email", [], true⟩,
   ⟨"announcements", "POST", "/", [.auth, .admin], true⟩,
   ⟨"announcements", "PUT", "/:id/sent", [.auth, .admin], true⟩,
   ⟨"announcements", "DELETE", "/:id", [.auth, .admin], true⟩]

/-- The deliberately public registrations (login and the user-facing
announcement/settings reads). -/
def publicRoutes : List (String × String × String) :=
  [("travelers", "POST", "/login"),
   ("settings", "GET", "/public"),
   ("settings", "GET", "/public/:key"),
   ("announcements", "GET", "/pending"),
   ("announcements", "GET", "/user/:email")]

/-- An incoming request as the auth middleware sees it. -/
structure MwReq where
  hasValidToken : Bool
  isAdmin : Bool
deriving DecidableEq

/-- Modelled from the spec: `middleware/auth.js` is not in the
repository (only its `require` sites are); the spec says the backend is
"gated by JWT authentication with an admin role" and that every route
runs "authenticate → authorize" first, so `authenticateToken` rejects a
request without a valid bearer token with a 401 error before the
handler, and `requireAdmin` rejects non-admins with 403. -/
def runMw : Mw → MwReq → Option Nat
  | .auth, r => if r.hasValidToken then none else some 401
  | .admin, r => if r.isAdmin then none else some 403

/-- Run the middleware chain, then the handler: the first rejecting
middleware short-circuits with its error status and the handler (and so
its SQL) never runs. -/
def routeOutcome (r : RouteSpec) (req : MwReq) : Option Nat × Bool :=
  match r.mws.findSome? (fun m => runMw m req) with
  | some status => (some status, false)
  | none => (none, r.runsSql)

/-! ## Claim C2: the login flow -/

/-- The traveler object the login response carries (the row without its
`password_hash`, plus `name` and `image`). -/
def loginTravelerBody (t : TravelerRow) : List (String × JVal) :=
  (t.fields.filter (fun kv => kv.1 ≠ "password_hash")) ++
    [("name", .jstr (fullName t)), ("image", .jstr (t.image_url.getD ""))]

/-- C2 witness: a concrete login against a one-row database. -/
def trav1 : TravelerRow :=
  ⟨1, "T001", "Asha", "", "Rao", "asha@example.com", "hash:pw1", none, none,
   "India", none, none, none, none, none, none, "Indian", "Female", none,
   some 3, none, none, none, "2025-01-01", "2025-01-01"⟩

/-- C3 witness: a non-admin listing over a mixed database sees only the
approved post, and reading the unapproved one by id gives 403. -/
def postA : PostRow :=
  ⟨1, "a@x.com", "A", "", "Temple", "", none, "", none, none, true, false, 0⟩

def postB : PostRow :=
  ⟨2, "b@x.com", "B", "", "Ghat", "", none, "", none, none, false, false, 0⟩

theorem hexVal_hexDigit : ∀ n : Nat, n < 16 → hexVal (hexDigit n) = some n := by
  decide

theorem isDigit_ne {c d : Char} (h : c.isDigit = true) (hd : d.isDigit = false) :
    c ≠ d := by
  rintro rfl
  rw [h] at hd
  exact Bool.noConfusion hd

theorem scanDigits_append (ds rest : List Char) (h1 : ds.all Char.isDigit = true)
    (h2 : headNotDigit rest = true) : scanDigits (ds ++ rest) = (ds, rest) := by
  induction ds with
  | nil =>
      cases rest with
      | nil => rfl
      | cons c cs =>
          simp only [headNotDigit, Bool.not_eq_true'] at h2
          simp [scanDigits, h2]
  | cons d ds ih =>
      simp only [List.all_cons, Bool.and_eq_true] at h1
      simp [scanDigits, h1.1, ih h1.2]

theorem charOfNat_toNat (c : Char) : Char.ofNat c.toNat = c := by
  unfold Char.ofNat
  rw [dif_pos (by exact c.valid)]
  apply Char.eq_of_val_eq
  apply UInt32.eq_of_toBitVec_eq
  simp [Char.ofNatAux, Char.toNat, UInt32.ofNatCore]
  apply BitVec.eq_of_toNat_eq
  simp [UInt32.toNat]

theorem parseStrBody_escList (s : List Char) :
    ∀ fuel rest, (escList s).length < fuel →
      parseStrBody fuel (escList s ++ '"' :: rest) = some (s, rest) := by
  induction s with
  | nil =>
      intro fuel rest h
      match fuel, h with
      | f + 1, _ => simp [escList, parseStrBody]
  | cons c cs ih =>
      intro fuel rest h
      rw [escList] at h ⊢
      by_cases h1 : c = '"'
      · subst h1
        rw [show escChar '"' = ['\\', '"'] from rfl] at h ⊢
        match fuel, h with
        | f + 1, h =>
            have hf : (escList cs).length < f := by
              simp [List.length] at h; omega
            simp [parseStrBody, unescChar, ih f rest hf]
      · by_cases h2 : c = '\\'
        · subst h2
          rw [show escChar '\\' = ['\\', '\\'] from rfl] at h ⊢
          match fuel, h with
          | f + 1, h =>
              have hf : (escList cs).length < f := by
                simp [List.length] at h; omega
              simp [parseStrBody, unescChar, ih f rest hf]
        · by_cases h3 : c = '\n'
          · subst h3
            rw [show escChar '\n' = ['\\', 'n'] from rfl] at h ⊢
            match fuel, h with
            | f + 1, h =>
                have hf : (escList cs).length < f := by
                  simp [List.length] at h; omega
                simp [parseStrBody, unescChar, ih f rest hf]
          · by_cases h4 : c = '\r'
            · subst h4
              rw [show escChar '\r' = ['\\', 'r'] from rfl] at h ⊢
              match fuel, h with
              | f + 1, h =>
                  have hf : (escList cs).length < f := by
                    simp [List.length] at h; omega
                  simp [parseStrBody, unescChar, ih f rest hf]
            · by_cases h5 : c = '\t'
              · subst h5
                rw [show escChar '\t' = ['\\', 't'] from rfl] at h ⊢
                match fuel, h with
                | f + 1, h =>
                    have hf : (escList cs).length < f := by
                      simp [List.length] at h; omega
                    simp [parseStrBody, unescChar, ih f rest hf]
              · by_cases h6 : c.toNat < 32
                · rw [show escChar c =
                      ['\\', 'u', '0', '0', hexDigit (c.toNat / 16),
                        hexDigit (c.toNat % 16)] by
                    simp [escChar, h1, h2, h3, h4, h5, h6]] at h ⊢
                  match fuel, h with
                  | f + 1, h =>
                      have hf : (escList cs).length < f := by
                        simp [List.length] at h; omega
                      have hx1 : c.toNat / 16 < 16 := by omega
                      have hx2 : c.toNat % 16 < 16 := by omega
                      have hch : Char.ofNat (((0 * 16 + 0) * 16 +
                          c.toNat / 16) * 16 + c.toNat % 16) = c := by
                        rw [show ((0 * 16 + 0) * 16 + c.toNat / 16) * 16 +
                          c.toNat % 16 = c.toNat by omega]
                        exact charOfNat_toNat c
                      have hch2 : Char.ofNat (c.toNat / 16 * 16 +
                          c.toNat % 16) = c := by
                        rw [show c.toNat / 16 * 16 + c.toNat % 16 =
                          c.toNat by omega]
                        exact charOfNat_toNat c
                      simp [parseStrBody, hexVal_hexDigit _ hx1,
                        hexVal_hexDigit _ hx2, ih f rest hf, hch, hch2,
                        show hexVal '0' = some 0 from rfl]
                · rw [show escChar c = [c] by
                    simp [escChar, h1, h2, h3, h4, h5, h6]] at h ⊢
                  match fuel, h with
                  | f + 1, h =>
                      have hf : (escList cs).length < f := by
                        simp [List.length] at h; omega
                      simp [parseStrBody, if_neg h1, if_neg h2, ih f rest hf]

theorem stringMk_data : ∀ s : String, String.mk s.data = s
  | ⟨_⟩ => rfl

theorem parseNumAux_neg_nofrac (d : Char) (ds : List Char)
    (h1 : (d :: ds).isEmpty = false) (h2 : (d :: ds).all Char.isDigit = true)
    (rest : List Char) (hr : goodRest rest = true)
    (hnd : headNotDigit rest = true) :
    parseNum ('-' :: (d :: (ds ++ rest))) =
      some (.jnum true (d :: ds) [], rest) := by
  have hscan : scanDigits (d :: (ds ++ rest)) = (d :: ds, rest) := by
    simpa using scanDigits_append (d :: ds) rest h2 hnd
  simp [parseNum, hscan, h1]
  split
  · simp [goodRest] at hr
  · rfl

theorem parseNumAux_pos_nofrac (d : Char) (ds : List Char)
    (h1 : (d :: ds).isEmpty = false) (h2 : (d :: ds).all Char.isDigit = true)
    (hdm : d ≠ '-')
    (rest : List Char) (hr : goodRest rest = true)
    (hnd : headNotDigit rest = true) :
    parseNum (d :: (ds ++ rest)) = some (.jnum false (d :: ds) [], rest) := by
  have hscan : scanDigits (d :: (ds ++ rest)) = (d :: ds, rest) := by
    simpa using scanDigits_append (d :: ds) rest h2 hnd
  simp [parseNum, hscan, h1, hdm]
  split
  · simp [goodRest] at hr
  · rfl

theorem parseNumAux_neg_frac (d e : Char) (ds es : List Char)
    (h1 : (d :: ds).isEmpty = false) (h2 : (d :: ds).all Char.isDigit = true)
    (h3 : (e :: es).all Char.isDigit = true)
    (rest : List Char) (hnd : headNotDigit rest = true) :
    parseNum ('-' :: (d :: (ds ++ '.' :: (e :: (es ++ rest))))) =
      some (.jnum true (d :: ds) (e :: es), rest) := by
  have hscan : scanDigits (d :: (ds ++ '.' :: (e :: (es ++ rest)))) =
      (d :: ds, '.' :: (e :: (es ++ rest))) := by
    simpa using scanDigits_append (d :: ds) ('.' :: (e :: (es ++ rest))) h2
      (by simp [headNotDigit])
  have hscan2 : scanDigits (e :: (es ++ rest)) = (e :: es, rest) := by
    simpa using scanDigits_append (e :: es) rest h3 hnd
  simp [parseNum, hscan, hscan2, h1]

theorem parseNumAux_pos_frac (d e : Char) (ds es : List Char)
    (h1 : (d :: ds).isEmpty = false) (h2 : (d :: ds).all Char.isDigit = true)
    (h3 : (e :: es).all Char.isDigit = true) (hdm : d ≠ '-')
    (rest : List Char) (hnd : headNotDigit rest = true) :
    parseNum (d :: (ds ++ '.' :: (e :: (es ++ rest)))) =
      some (.jnum false (d :: ds) (e :: es), rest) := by
  have hscan : scanDigits (d :: (ds ++ '.' :: (e :: (es ++ rest)))) =
      (d :: ds, '.' :: (e :: (es ++ rest))) := by
    simpa using scanDigits_append (d :: ds) ('.' :: (e :: (es ++ rest))) h2
      (by simp [headNotDigit])
  have hscan2 : scanDigits (e :: (es ++ rest)) = (e :: es, rest) := by
    simpa using scanDigits_append (e :: es) rest h3 hnd
  simp [parseNum, hscan, hscan2, h1, hdm]

theorem parseNum_ser (neg : Bool) (ip fp : List Char)
    (h1 : ip.isEmpty = false) (h2 : ip.all Char.isDigit = true)
    (h3 : fp.all Char.isDigit = true) :
    ∀ rest, goodRest rest = true →
      parseNum ((JVal.jnum neg ip fp).ser ++ rest) =
        some (.jnum neg ip fp, rest) := by
  intro rest hr
  have hnd : headNotDigit rest = true := by
    cases rest with
    | nil => rfl
    | cons c t =>
        simp only [goodRest, Bool.not_eq_true', Bool.or_eq_false_iff] at hr
        simp [headNotDigit, hr.1]
  obtain ⟨d, ds, rfl⟩ : ∃ d ds, ip = d :: ds := by
    cases ip with
    | nil => simp [List.isEmpty] at h1
    | cons d ds => exact ⟨d, ds, rfl⟩
  have hdd : d.isDigit = true := by
    simp only [List.all_cons, Bool.and_eq_true] at h2; exact h2.1
  have hdm : d ≠ '-' := isDigit_ne hdd (by decide)
  cases fp with
  | nil =>
      cases neg with
      | true =>
          have hser : ((JVal.jnum true (d :: ds) []).ser ++ rest : List Char) =
              '-' :: (d :: (ds ++ rest)) := by simp [JVal.ser]
          rw [hser]
          exact parseNumAux_neg_nofrac d ds h1 h2 rest hr hnd
      | false =>
          have hser : ((JVal.jnum false (d :: ds) []).ser ++ rest : List Char) =
              d :: (ds ++ rest) := by simp [JVal.ser]
          rw [hser]
          exact parseNumAux_pos_nofrac d ds h1 h2 hdm rest hr hnd
  | cons e es =>
      cases neg with
      | true =>
          have hser : ((JVal.jnum true (d :: ds) (e :: es)).ser ++ rest :
              List Char) = '-' :: (d :: (ds ++ '.' :: (e :: (es ++ rest)))) := by
            simp [JVal.ser]
          rw [hser]
          exact parseNumAux_neg_frac d e ds es h1 h2 h3 rest hnd
      | false =>
          have hser : ((JVal.jnum false (d :: ds) (e :: es)).ser ++ rest :
              List Char) = d :: (ds ++ '.' :: (e :: (es ++ rest))) := by
            simp [JVal.ser]
          rw [hser]
          exact parseNumAux_pos_frac d e ds es h1 h2 h3 hdm rest hnd

theorem ser_head (v : JVal) (h : v.wf = true) :
    ∃ c t, v.ser = c :: t ∧ headOk c = true := by
  cases v with
  | jnull => exact ⟨'n', _, rfl, by decide⟩
  | jbool b =>
      cases b with
      | false => exact ⟨'f', _, rfl, by decide⟩
      | true => exact ⟨'t', _, rfl, by decide⟩
  | jnum neg ip fp =>
      cases neg with
      | true => exact ⟨'-', _, rfl, by decide⟩
      | false =>
          simp only [JVal.wf, Bool.and_eq_true, Bool.not_eq_true'] at h
          obtain ⟨⟨hne, hall⟩, _⟩ := h
          cases ip with
          | nil => simp [List.isEmpty] at hne
          | cons d ds =>
              refine ⟨d, ds ++ (if fp.isEmpty then [] else '.' :: fp), ?_, ?_⟩
              · simp [JVal.ser]
              · simp only [List.all_cons, Bool.and_eq_true] at hall
                simp [headOk, hall.1]
  | jstr s => exact ⟨'"', _, rfl, by decide⟩
  | jarr xs => exact ⟨'[', _, rfl, by decide⟩
  | jobj fs => exact ⟨lbrace, _, rfl, by decide⟩

theorem headOk_ne_rbracket {c : Char} (h : headOk c = true) : c ≠ ']' := by
  rintro rfl; exact absurd h (by decide)

theorem headOk_ne_rbrace {c : Char} (h : headOk c = true) : c ≠ rbrace := by
  rintro rfl; exact absurd h (by decide)

theorem jnum_head (neg : Bool) (ip fp : List Char)
    (hw : (JVal.jnum neg ip fp).wf = true) :
    ∃ c0 t0, (JVal.jnum neg ip fp).ser = c0 :: t0 ∧
      (c0 = '-' ∨ c0.isDigit = true) := by
  simp only [JVal.wf, Bool.and_eq_true, Bool.not_eq_true'] at hw
  obtain ⟨⟨hne, hall⟩, _⟩ := hw
  cases neg with
  | true => exact ⟨'-', _, rfl, Or.inl rfl⟩
  | false =>
      cases ip with
      | nil => simp [List.isEmpty] at hne
      | cons d ds =>
          refine ⟨d, ds ++ (if fp.isEmpty then [] else '.' :: fp), ?_, ?_⟩
          · simp [JVal.ser]
          · simp only [List.all_cons, Bool.and_eq_true] at hall
            exact Or.inr hall.1

mutual

theorem parseVal_ser (v : JVal) (hw : v.wf = true) (fuel : Nat)
    (hf : v.cost ≤ fuel) (rest : List Char) (hr : goodRest rest = true) :
    parseVal fuel (v.ser ++ rest) = some (v, rest) := by
  cases v with
  | jnull =>
      obtain ⟨f, rfl⟩ : ∃ f, fuel = f + 1 :=
        ⟨fuel - 1, by simp [JVal.cost] at hf; omega⟩
      simp [JVal.ser, parseVal]
  | jbool b =>
      obtain ⟨f, rfl⟩ : ∃ f, fuel = f + 1 :=
        ⟨fuel - 1, by simp [JVal.cost] at hf; omega⟩
      cases b <;> simp [JVal.ser, parseVal]
  | jnum neg ip fp =>
      obtain ⟨f, rfl⟩ : ∃ f, fuel = f + 1 :=
        ⟨fuel - 1, by simp [JVal.cost] at hf; omega⟩
      obtain ⟨c0, t0, hser0, hc0⟩ := jnum_head neg ip fp hw
      have h1 : ip.isEmpty = false := by
        simp only [JVal.wf, Bool.and_eq_true, Bool.not_eq_true'] at hw
        exact hw.1.1
      have h2 : ip.all Char.isDigit = true := by
        simp only [JVal.wf, Bool.and_eq_true, Bool.not_eq_true'] at hw
        exact hw.1.2
      have h3 : fp.all Char.isDigit = true := by
        simp only [JVal.wf, Bool.and_eq_true, Bool.not_eq_true'] at hw
        exact hw.2
      have hnum := parseNum_ser neg ip fp h1 h2 h3 rest hr
      have hne : c0 ≠ 'n' ∧ c0 ≠ 't' ∧ c0 ≠ 'f' ∧ c0 ≠ '"' ∧ c0 ≠ '[' ∧
          c0 ≠ lbrace := by
        rcases hc0 with rfl | hd
        · refine ⟨by decide, by decide, by decide, by decide, by decide,
            by decide⟩
        · exact ⟨isDigit_ne hd (by decide), isDigit_ne hd (by decide),
            isDigit_ne hd (by decide), isDigit_ne hd (by decide),
            isDigit_ne hd (by decide), isDigit_ne hd (by decide)⟩
      rw [hser0] at hnum ⊢
      simp only [List.cons_append] at hnum ⊢
      simp only [parseVal, if_neg hne.1, if_neg hne.2.1, if_neg hne.2.2.1,
        if_neg hne.2.2.2.1, if_neg hne.2.2.2.2.1, if_neg hne.2.2.2.2.2]
      exact hnum
  | jstr s =>
      obtain ⟨f, rfl⟩ : ∃ f, fuel = f + 1 :=
        ⟨fuel - 1, by simp [JVal.cost] at hf; omega⟩
      have hbody := parseStrBody_escList s.data
        ((escList s.data ++ '"' :: rest).length + 1) rest
        (by simp [List.length_append]; omega)
      simp only [JVal.ser, strLit, List.cons_append, List.append_assoc,
        List.singleton_append, List.nil_append]
      simp only [parseVal, if_neg (by decide : ¬('"' : Char) = 'n'),
        if_neg (by decide : ¬('"' : Char) = 't'),
        if_neg (by decide : ¬('"' : Char) = 'f'), if_pos rfl, eq_self_iff_true,
        ite_true]
      rw [hbody]
      simp [stringMk_data]
  | jarr xs =>
      cases xs with
      | nil =>
          obtain ⟨f, rfl⟩ : ∃ f, fuel = f + 1 :=
            ⟨fuel - 1, by simp [JVal.cost, JElems.cost] at hf; omega⟩
          simp [JVal.ser, JElems.ser, parseVal]
      | cons w tl =>
          obtain ⟨f, rfl⟩ : ∃ f, fuel = f + 1 :=
            ⟨fuel - 1, by simp [JVal.cost, JElems.cost] at hf; omega⟩
          have hwE : (JElems.cons w tl).wf = true := by
            simpa [JVal.wf] using hw
          have hww : w.wf = true := by
            simp only [JElems.wf, Bool.and_eq_true] at hwE
            exact hwE.1
          obtain ⟨c0, t0, hs, hok⟩ := ser_head w hww
          obtain ⟨T, hT⟩ : ∃ T,
              (JElems.cons w tl).ser ++ ']' :: rest = c0 :: T := by
            cases tl with
            | nil =>
                exact ⟨t0 ++ ']' :: rest, by simp [JElems.ser, hs]⟩
            | cons w2 tl2 =>
                exact ⟨t0 ++ ',' :: ((JElems.cons w2 tl2).ser ++ ']' :: rest),
                  by simp [JElems.ser, hs]⟩
          have hrec := parseElems_ser w tl hwE f
            (by simp only [JVal.cost] at hf; omega) rest
          simp only [JVal.ser, List.cons_append, List.append_assoc,
            List.singleton_append, List.nil_append]
          rw [hT]
          simp only [parseVal, if_neg (by decide : ¬('[' : Char) = 'n'),
            if_neg (by decide : ¬('[' : Char) = 't'),
            if_neg (by decide : ¬('[' : Char) = 'f'),
            if_neg (by decide : ¬('[' : Char) = '"'), if_pos rfl,
            if_neg (headOk_ne_rbracket hok)]
          rw [← hT, hrec]
          simp
  | jobj fs =>
      cases fs with
      | nil =>
          obtain ⟨f, rfl⟩ : ∃ f, fuel = f + 1 :=
            ⟨fuel - 1, by simp [JVal.cost, JMembers.cost] at hf; omega⟩
          simp [JVal.ser, JMembers.ser, parseVal, lbrace, rbrace]
      | cons k w tl =>
          obtain ⟨f, rfl⟩ : ∃ f, fuel = f + 1 :=
            ⟨fuel - 1, by simp [JVal.cost, JMembers.cost] at hf; omega⟩
          have hwM : (JMembers.cons k w tl).wf = true := by
            simpa [JVal.wf] using hw
          obtain ⟨T, hT⟩ : ∃ T,
              (JMembers.cons k w tl).ser ++ rbrace :: rest = '"' :: T := by
            cases tl with
            | nil =>
                exact ⟨escList k.data ++ '"' :: (':' ::
                  (w.ser ++ rbrace :: rest)), by simp [JMembers.ser, strLit]⟩
            | cons k2 w2 tl2 =>
                exact ⟨escList k.data ++ '"' :: (':' :: (w.ser ++ ',' ::
                  ((JMembers.cons k2 w2 tl2).ser ++ rbrace :: rest))),
                  by simp [JMembers.ser, strLit]⟩
          have hrec := parseMembers_ser k w tl hwM f
            (by simp only [JVal.cost] at hf; omega) rest
          simp only [JVal.ser, List.cons_append, List.append_assoc,
            List.singleton_append, List.nil_append]
          rw [hT]
          simp only [parseVal, if_neg (by decide : ¬lbrace = 'n'),
            if_neg (by decide : ¬lbrace = 't'),
            if_neg (by decide : ¬lbrace = 'f'),
            if_neg (by decide : ¬lbrace = '"'),
            if_neg (by decide : ¬lbrace = '['), if_pos rfl,
            if_neg (by decide : ¬('"' : Char) = rbrace)]
          rw [← hT, hrec]
          simp
termination_by sizeOf v

theorem parseElems_ser (w : JVal) (tl : JElems)
    (hw : (JElems.cons w tl).wf = true) (fuel : Nat)
    (hf : (JElems.cons w tl).cost ≤ fuel) (rest : List Char) :
    parseElems fuel ((JElems.cons w tl).ser ++ ']' :: rest) =
      some (.cons w tl, rest) := by
  obtain ⟨f, rfl⟩ : ∃ f, fuel = f + 1 :=
    ⟨fuel - 1, by simp [JElems.cost] at hf; omega⟩
  have hww : w.wf = true := by
    simp only [JElems.wf, Bool.and_eq_true] at hw
    exact hw.1
  cases tl with
  | nil =>
      have hv := parseVal_ser w hww f
        (by simp only [JElems.cost] at hf; omega) (']' :: rest)
        (by simp [goodRest])
      simp only [JElems.ser, parseElems, hv]
  | cons w2 tl2 =>
      have hv := parseVal_ser w hww f
        (by simp only [JElems.cost] at hf; omega)
        (',' :: ((JElems.cons w2 tl2).ser ++ ']' :: rest))
        (by simp [goodRest])
      have hrec := parseElems_ser w2 tl2
        (by simp only [JElems.wf, Bool.and_eq_true] at hw ⊢
            exact hw.2) f
        (by simp only [JElems.cost] at hf ⊢; omega) rest
      simp only [JElems.ser, List.append_assoc, List.cons_append]
      simp only [parseElems]
      rw [show ((w.ser ++ ',' :: ((JElems.cons w2 tl2).ser ++ ']' :: rest)) :
        List Char) = w.ser ++ (',' :: ((JElems.cons w2 tl2).ser ++
          ']' :: rest)) from rfl] at hv ⊢
      rw [hv]
      simp [hrec]
termination_by 1 + sizeOf w + sizeOf tl

theorem parseMembers_ser (k : String) (w : JVal) (tl : JMembers)
    (hw : (JMembers.cons k w tl).wf = true) (fuel : Nat)
    (hf : (JMembers.cons k w tl).cost ≤ fuel) (rest : List Char) :
    parseMembers fuel ((JMembers.cons k w tl).ser ++ rbrace :: rest) =
      some (.cons k w tl, rest) := by
  obtain ⟨f, rfl⟩ : ∃ f, fuel = f + 1 :=
    ⟨fuel - 1, by simp [JMembers.cost] at hf; omega⟩
  have hww : w.wf = true := by
    simp only [JMembers.wf, Bool.and_eq_true] at hw
    exact hw.1
  cases tl with
  | nil =>
      have hv := parseVal_ser w hww f
        (by simp only [JMembers.cost] at hf; omega) (rbrace :: rest)
        (by simp [goodRest, rbrace])
      have hbody := parseStrBody_escList k.data
        ((escList k.data ++ '"' :: (':' :: (w.ser ++ rbrace :: rest))).length
          + 1) (':' :: (w.ser ++ rbrace :: rest))
        (by simp [List.length_append]; omega)
      simp only [JMembers.ser, strLit, List.cons_append, List.append_assoc,
        List.singleton_append, List.nil_append]
      simp only [parseMembers]
      rw [hbody]
      simp only [hv]
      simp [stringMk_data, rbrace]
  | cons k2 w2 tl2 =>
      have hv := parseVal_ser w hww f
        (by simp only [JMembers.cost] at hf; omega)
        (',' :: ((JMembers.cons k2 w2 tl2).ser ++ rbrace :: rest))
        (by simp [goodRest])
      have hrec := parseMembers_ser k2 w2 tl2
        (by simp only [JMembers.wf, Bool.and_eq_true] at hw ⊢
            exact hw.2) f
        (by simp only [JMembers.cost] at hf ⊢; omega) rest
      have hbody := parseStrBody_escList k.data
        ((escList k.data ++ '"' :: (':' :: (w.ser ++ ',' ::
          ((JMembers.cons k2 w2 tl2).ser ++ rbrace :: rest)))).length + 1)
        (':' :: (w.ser ++ ',' :: ((JMembers.cons k2 w2 tl2).ser ++
          rbrace :: rest)))
        (by simp [List.length_append]; omega)
      simp only [JMembers.ser, strLit, List.cons_append, List.append_assoc,
        List.singleton_append, List.nil_append]
      simp only [parseMembers]
      rw [hbody]
      simp only [hv]
      simp [hrec, stringMk_data]
termination_by 1 + sizeOf w + sizeOf tl

end
theorem ser_length_pos (v : JVal) (hw : v.wf = true) : 1 ≤ v.ser.length := by
  obtain ⟨c, t, hs, _⟩ := ser_head v hw
  rw [hs]
  simp

mutual

theorem valCost_le (v : JVal) (hw : v.wf = true) : v.cost ≤ v.ser.length := by
  cases v with
  | jnull => simp [JVal.cost, JVal.ser]
  | jbool b => cases b <;> simp [JVal.cost, JVal.ser]
  | jnum neg ip fp =>
      have := ser_length_pos (.jnum neg ip fp) hw
      simpa [JVal.cost] using this
  | jstr s => simp [JVal.cost, JVal.ser, strLit]
  | jarr xs =>
      have h1 : xs.wf = true := by simpa [JVal.wf] using hw
      have h2 := elemsCost_le xs h1
      simp only [JVal.cost, JVal.ser, List.length_cons, List.length_append]
      omega
  | jobj fs =>
      have h1 : fs.wf = true := by simpa [JVal.wf] using hw
      have h2 := membersCost_le fs h1
      simp only [JVal.cost, JVal.ser, List.length_cons, List.length_append]
      omega

theorem elemsCost_le (xs : JElems) (hw : xs.wf = true) :
    xs.cost ≤ xs.ser.length + 1 := by
  cases xs with
  | nil => simp [JElems.cost]
  | cons w tl =>
      have hww : w.wf = true := by
        simp only [JElems.wf, Bool.and_eq_true] at hw; exact hw.1
      have h1 := valCost_le w hww
      have h2 := ser_length_pos w hww
      cases tl with
      | nil =>
          simp only [JElems.cost, JElems.ser, JElems.cost]
          omega
      | cons w2 tl2 =>
          have h3 := elemsCost_le (.cons w2 tl2)
            (by simp only [JElems.wf, Bool.and_eq_true] at hw ⊢; exact hw.2)
          simp only [JElems.cost, JElems.ser, List.length_append,
            List.length_cons] at h3 ⊢
          omega

theorem membersCost_le (fs : JMembers) (hw : fs.wf = true) :
    fs.cost ≤ fs.ser.length + 1 := by
  cases fs with
  | nil => simp [JMembers.cost]
  | cons k w tl =>
      have hww : w.wf = true := by
        simp only [JMembers.wf, Bool.and_eq_true] at hw; exact hw.1
      have h1 := valCost_le w hww
      have h2 := ser_length_pos w hww
      cases tl with
      | nil =>
          simp only [JMembers.cost, JMembers.ser, List.length_append,
            List.length_cons, JMembers.cost]
          omega
      | cons k2 w2 tl2 =>
          have h3 := membersCost_le (.cons k2 w2 tl2)
            (by simp only [JMembers.wf, Bool.and_eq_true] at hw ⊢; exact hw.2)
          simp only [JMembers.cost, JMembers.ser, List.length_append,
            List.length_cons] at h3 ⊢
          omega

end
/-- `JSON.parse` inverts `JSON.stringify` on well-formed values: the
round trip of the JS serialization pipeline. -/
theorem jsonParse_jsonStringify (v : JVal) (hw : v.wf = true) :
    jsonParse (jsonStringify v) = some v := by
  have h1 := parseVal_ser v hw (v.ser.length + 1)
    (by have := valCost_le v hw; omega) [] rfl
  rw [List.append_nil] at h1
  simp only [jsonParse, jsonStringify]
  rw [h1]

/-! ## Claim C1: authentication before SQL -/

theorem findSome_mw_auth (mws : List Mw) (req : MwReq) (h : Mw.auth ∈ mws)
    (ht : req.hasValidToken = false) :
    (mws.findSome? (fun m => runMw m req)).isSome = true := by
  induction mws with
  | nil => simp at h
  | cons m tl ih =>
      cases hm : runMw m req with
      | some s => simp [List.findSome?, hm]
      | none =>
          rcases List.mem_cons.mp h with rfl | htl
          · simp [runMw, ht] at hm
          · have := ih htl
            simpa [List.findSome?, hm] using this

/-- C1 (counterexample): `GET /api/announcements/pending` is registered
with no middleware at all, and a request with no token runs the
handler's SQL and gets no error response — contradicting the claim that
every handler of every route module authenticates before SQL. -/
theorem c1_counterexample :
    (⟨"announcements", "GET", "/pending", [], true⟩ : RouteSpec) ∈
        routeTable ∧
    routeOutcome ⟨"announcements", "GET", "/pending", [], true⟩
        ⟨false, false⟩ = (none, true) := by
  constructor
  · simp [routeTable]
  · rfl

/-- C1 (amended): every registered handler except the deliberately
public ones (traveler login, the two public announcement reads and the
two public settings reads) is guarded by `authenticateToken`, and for
any auth-guarded route a request without a valid token receives an
error status and its handler's SQL never runs. -/
theorem c1_amended_auth_before_sql :
    (∀ r ∈ routeTable, (r.modName, r.method, r.path) ∉ publicRoutes →
      Mw.auth ∈ r.mws) ∧
    (∀ (r : RouteSpec) (req : MwReq), Mw.auth ∈ r.mws →
      req.hasValidToken = false →
      (routeOutcome r req).1.isSome = true ∧
        (routeOutcome r req).2 = false) := by
  constructor
  · decide
  · intro r req hm ht
    have h := findSome_mw_auth r.mws req hm ht
    unfold routeOutcome
    rcases ho : r.mws.findSome? (fun m => runMw m req) with _ | s
    · rw [ho] at h; simp at h
    · simp

/-- C1 witness: the auth-guarded `GET /api/travelers` route rejects a
tokenless request before any SQL. -/
theorem c1_amended_witness :
    (routeOutcome ⟨"travelers", "GET", "/", [.auth, .admin], true⟩
        ⟨false, false⟩).1.isSome = true ∧
    (routeOutcome ⟨"travelers", "GET", "/", [.auth, .admin], true⟩
        ⟨false, false⟩).2 = false :=
  c1_amended_auth_before_sql.2 ⟨"travelers", "GET", "/", [.auth, .admin], true⟩
    ⟨false, false⟩ (by decide) rfl

/-- C2: `POST /api/travelers/login` — a missing e-mail or password gives
400; an unknown e-mail and a failed bcrypt comparison both give 401 with
the identical message "Invalid email or password"; otherwise the
response carries a JWT signed with the configured secret whose payload
is the traveler's id and e-mail with `isAdmin = false` and a 7-day
expiry, together with the traveler's data. -/
theorem c2_login_flow (db : List TravelerRow)
    (bc : String → String → Bool) (sec : Option String)
    (email password : Option String) :
    (email = none ∨ password = none →
      postLogin db bc sec email password =
        .err 400 "Email and password required") ∧
    (∀ e p, email = some e → password = some p → e ≠ "" → p ≠ "" →
      (db.find? (fun t => t.email == e) = none →
        postLogin db bc sec email password =
          .err 401 "Invalid email or password") ∧
      (∀ t, db.find? (fun t => t.email == e) = some t →
        (bc p t.password_hash = false →
          postLogin db bc sec email password =
            .err 401 "Invalid email or password") ∧
        (∀ s, bc p t.password_hash = true → sec = some s →
          postLogin db bc sec email password =
            .ok ⟨t.id, t.email, false, s, "7d"⟩ (loginTravelerBody t)
              "7d"))) := by
  refine ⟨?_, ?_⟩
  · rintro (rfl | rfl) <;> simp [postLogin, strTruthy]
  · rintro e p rfl rfl he hp
    have hse : strTruthy (some e) = true := by
      simp [strTruthy]
      exact Bool.eq_false_iff.mpr (fun hh => he ((String.isEmpty_iff e).mp hh))
    have hsp : strTruthy (some p) = true := by
      simp [strTruthy]
      exact Bool.eq_false_iff.mpr (fun hh => hp ((String.isEmpty_iff p).mp hh))
    refine ⟨?_, ?_⟩
    · intro hfind
      simp [postLogin, hse, hsp, hfind]
    · intro t hfind
      refine ⟨?_, ?_⟩
      · intro hbc
        simp [postLogin, hse, hsp, hfind, hbc]
      · rintro s hbc rfl
        simp [postLogin, hse, hsp, hfind, hbc, loginTravelerBody]

theorem c2_login_flow_witness :
    postLogin [trav1] (fun p h => h == "hash:" ++ p) (some "s3cret")
        (some "asha@example.com") (some "pw1") =
      .ok ⟨1, "asha@example.com", false, "s3cret", "7d"⟩
        (loginTravelerBody trav1) "7d" :=
  ((c2_login_flow [trav1] (fun p h => h == "hash:" ++ p) (some "s3cret")
      (some "asha@example.com") (some "pw1")).2 "asha@example.com" "pw1"
      rfl rfl (by decide) (by decide)).2 trav1 (by rfl) |>.2 "s3cret"
      (by rfl) rfl

/-! ## Claim C3: admin approval gates post reads -/

/-- C3: `GET /api/posts` returns only approved posts to non-admins; an
admin with no approval filter (and no other filters) receives every
post; `GET /api/posts/:id` on an unapproved post returns 403
"Post not available" to a non-admin. -/
theorem c3_post_approval_on_read :
    (∀ (user : AuthUser) (ap : Option String) (sp : Option Nat)
        (au : Option String) (l o : Option Nat) (db : List PostRow)
        (p : PostRow), user.isAdmin = false →
        p ∈ getPosts user ap sp au l o db → p.approved = true) ∧
    (∀ (user : AuthUser) (db : List PostRow), user.isAdmin = true →
        getPosts user none none none none none db = db) ∧
    (∀ (user : AuthUser) (pid : Nat) (db : List PostRow) (p : PostRow),
        user.isAdmin = false →
        db.find? (fun q => q.id == pid) = some p → p.approved = false →
        getPostById user pid db = .err 403 "Post not available") := by
  refine ⟨?_, ?_, ?_⟩
  · intro user ap sp au l o db p hadm hmem
    have hbase : p ∈ db.filter (postsWhere user ap sp au) := by
      unfold getPosts at hmem
      rcases l with _ | l
      · exact hmem
      · rcases o with _ | o
        · exact List.mem_of_mem_take hmem
        · exact List.mem_of_mem_drop (List.mem_of_mem_take hmem)
    have hpred := (List.mem_filter.mp hbase).2
    simp [postsWhere, hadm] at hpred
    exact hpred.1.1
  · intro user db hadm
    simp [getPosts, postsWhere, hadm, List.filter_eq_self]
  · intro user pid db p hadm hfind hap
    simp [getPostById, hfind, hadm, hap]

theorem c3_post_approval_witness :
    ((⟨1, "a@x.com", true⟩ : AuthUser).isAdmin = false ∧
      postA ∈ getPosts ⟨1, "a@x.com", false⟩ none none none none none
        [postA, postB] → postA.approved = true) ∧
    getPostById ⟨1, "a@x.com", false⟩ 2 [postA, postB] =
      .err 403 "Post not available" :=
  ⟨fun h => c3_post_approval_on_read.1 ⟨1, "a@x.com", false⟩ none none none
      none none [postA, postB] postA rfl h.2,
   c3_post_approval_on_read.2.2 ⟨1, "a@x.com", false⟩ 2 [postA, postB] postB
      rfl (by decide) rfl⟩

/-! ## Claim C4: self-approval at post creation (code bug) -/

/-- C4 (failing input): a non-admin author sends
`POST /api/posts` with `approved: true` in the body.  The handler
computes `finalApproved` from the request body with no admin check and
inserts the post already approved — the post never needed an admin
action, contradicting the admin-approval model (the same file's
`PUT /:id` guards `approved` behind `req.user.isAdmin`, and the security
audit lists content approval as admin-only). -/
theorem c4_self_approval_code_bug :
    (createPost ⟨2, "user@example.com", false⟩
        ⟨some "user@example.com", none, some "User", none, none,
         some "Temple", none, none, none, some (.jbool true), none⟩
        [] 1 []).1 = .created 201 1 true false ∧
    ((createPost ⟨2, "user@example.com", false⟩
        ⟨some "user@example.com", none, some "User", none, none,
         some "Temple", none, none, none, some (.jbool true), none⟩
        [] 1 []).2.map (fun p => p.approved)) = [true] ∧
    (putPostApprovedField ⟨2, "user@example.com", false⟩ (some true)
        false = false) :=
  ⟨rfl, rfl, rfl⟩

/-! ## Claim C9: password_hash never leaves the API -/

/-- C9: no traveler-facing response contains the `password_hash` column:
`formatTravelerData` (used by `GET /public` and `GET /`) lists its
fields explicitly, and `GET /:id` and `POST /login` destructure
`password_hash` out of the row before responding. -/
theorem c9_password_hash_never_exposed :
    (∀ (t : TravelerRow) (vn vc : Option String),
      "password_hash" ∉ (formatTravelerData t vn vc).map Prod.fst) ∧
    (∀ t : TravelerRow,
      "password_hash" ∉ (getTravelerByIdBody t).map Prod.fst) ∧
    (∀ (db : List TravelerRow) (bc : String → String → Bool)
        (sec : Option String) (email password : Option String)
        (tok : JwtToken) (trav : List (String × JVal)) (e : String),
      postLogin db bc sec email password = .ok tok trav e →
      "password_hash" ∉ trav.map Prod.fst) := by
  refine ⟨?_, ?_, ?_⟩
  · intro t vn vc
    simp [formatTravelerData]
  · intro t
    simp [getTravelerByIdBody, TravelerRow.fields]
  · intro db bc sec email password tok trav e h
    unfold postLogin at h
    by_cases hguard : (!strTruthy email || !strTruthy password) = true
    · rw [if_pos hguard] at h
      exact absurd h (by simp)
    · rw [if_neg hguard] at h
      rcases hfind : db.find? (fun t => t.email == email.getD "") with _ | t
      · simp only [hfind] at h
        exact absurd h (by simp)
      · simp only [hfind] at h
        by_cases hbc : bc (password.getD "") t.password_hash = true
        · simp only [hbc, Bool.not_true, Bool.false_eq_true, if_false] at h
          rcases sec with _ | sc
          · simp only [] at h
            exact absurd h (by simp)
          · simp only [LoginResult.ok.injEq] at h
            rw [← h.2.1]
            simp [TravelerRow.fields]
        · simp only [Bool.not_eq_true] at hbc
          simp only [hbc, Bool.not_false, if_true] at h
          exact absurd h (by simp)

/-! ## Claim C6: one active check-in per (vehicle, e-mail) pair -/

theorem noDupActive_append_singleton (rows : List CheckInRow)
    (x : CheckInRow) (h1 : noDupActive rows = true)
    (h2 : rows.all (fun r => !conflictCI r x) = true) :
    noDupActive (rows ++ [x]) = true := by
  induction rows with
  | nil => simp [noDupActive]
  | cons r rs ih =>
      simp only [noDupActive, Bool.and_eq_true] at h1
      simp only [List.all_cons, Bool.and_eq_true] at h2
      simp only [List.cons_append, noDupActive, Bool.and_eq_true,
        List.all_append, List.all_cons, List.all_nil]
      refine ⟨?_, ih h1.2 h2.2⟩
      simp [h1.1, h2.1]

theorem conflictCI_map_deactivate (cid : Nat) (now : Nat)
    (a b : CheckInRow)
    (h : conflictCI
      (if a.id == cid then
        { a with active := false, checked_out_at := some now } else a)
      (if b.id == cid then
        { b with active := false, checked_out_at := some now } else b) =
      true) : conflictCI a b = true := by
  by_cases ha : a.id == cid <;> by_cases hb : b.id == cid <;>
    simp [ha, hb, conflictCI] at h ⊢ <;> simp_all

theorem noDupActive_map_deactivate (rows : List CheckInRow)
    (cid now : Nat) (h : noDupActive rows = true) :
    noDupActive (rows.map (fun r2 =>
      if r2.id == cid then
        { r2 with active := false, checked_out_at := some now }
      else r2)) = true := by
  induction rows with
  | nil => simp [noDupActive]
  | cons r rs ih =>
      simp only [noDupActive, Bool.and_eq_true] at h
      simp only [List.map_cons, noDupActive, Bool.and_eq_true]
      refine ⟨?_, ih h.2⟩
      have hall := h.1
      rw [List.all_eq_true] at hall
      rw [List.all_eq_true]
      intro s hs
      obtain ⟨s0, hs0, rfl⟩ := List.mem_map.mp hs
      have hrs0 := hall s0 hs0
      rw [Bool.not_eq_true'] at hrs0
      rw [Bool.not_eq_true']
      by_contra hcc
      rw [Bool.not_eq_false] at hcc
      exact absurd (conflictCI_map_deactivate cid now r s0 hcc)
        (by simp [hrs0])

/-- C6: duplicate active check-in for the same (vehicle, e-mail) pair is
rejected with 400 "Already checked in" and leaves the table unchanged;
otherwise exactly one new row with `active = 1` is inserted; checkout
sets the record's active flag to 0 with a checkout timestamp; and both
operations preserve the at-most-one-active invariant. -/
theorem c6_checkin_uniqueness :
    (∀ (user : AuthUser) (vehicleId travelerEmail : Option String)
        (travelerId : Option Nat) (travelers : List TravelerRow)
        (db : CheckInsDb) (vid : Int) (r : CheckInRow),
      strTruthy vehicleId = true → strTruthy travelerEmail = true →
      jsParseInt (vehicleId.getD "") = some vid → vid > 0 →
      (user.isAdmin = true ∨ user.email = travelerEmail.getD "") →
      db.rows.find? (fun r => r.vehicle_id == vid.toNat &&
        r.traveler_email == travelerEmail.getD "" && r.active) = some r →
      postCheckIn user vehicleId travelerEmail travelerId travelers db =
        (.err 400 "Already checked in", db)) ∧
    (∀ (user : AuthUser) (vehicleId travelerEmail : Option String)
        (travelerId : Option Nat) (travelers : List TravelerRow)
        (db : CheckInsDb) (vid : Int),
      strTruthy vehicleId = true → strTruthy travelerEmail = true →
      jsParseInt (vehicleId.getD "") = some vid → vid > 0 →
      (user.isAdmin = true ∨ user.email = travelerEmail.getD "") →
      db.rows.find? (fun r => r.vehicle_id == vid.toNat &&
        r.traveler_email == travelerEmail.getD "" && r.active) = none →
      ∃ row : CheckInRow,
        (postCheckIn user vehicleId travelerEmail travelerId travelers
          db).2.rows = db.rows ++ [row] ∧
        row.active = true ∧ row.vehicle_id = vid.toNat ∧
        row.traveler_email = travelerEmail.getD "" ∧
        (postCheckIn user vehicleId travelerEmail travelerId travelers
          db).1 = .created 201 db.nextId) ∧
    (∀ (user : AuthUser) (cid now : Nat) (db : CheckInsDb)
        (r : CheckInRow),
      db.rows.find? (fun q => q.id == cid) = some r →
      (user.isAdmin = true ∨ r.traveler_email = user.email) →
      (checkout user cid now db).2.rows = db.rows.map (fun r2 =>
        if r2.id == cid then
          { r2 with active := false, checked_out_at := some now }
        else r2) ∧
      (checkout user cid now db).1 = .okMsg "Checked out successfully") ∧
    (∀ (user : AuthUser) (vehicleId travelerEmail : Option String)
        (travelerId : Option Nat) (travelers : List TravelerRow)
        (db : CheckInsDb),
      noDupActive db.rows = true →
      noDupActive (postCheckIn user vehicleId travelerEmail travelerId
        travelers db).2.rows = true) ∧
    (∀ (user : AuthUser) (cid now : Nat) (db : CheckInsDb),
      noDupActive db.rows = true →
      noDupActive (checkout user cid now db).2.rows = true) := by
  refine ⟨?_, ?_, ?_, ?_, ?_⟩
  · intro user vehicleId travelerEmail travelerId travelers db vid r
      hv he hp hpos hauth hfind
    simp only [postCheckIn, hv, he, Bool.not_true, Bool.false_or,
      Bool.false_eq_true, if_false, hp]
    rw [if_neg (show ¬(vid ≤ 0) by omega)]
    rcases hauth with hadm | hown
    · simp [hadm, hfind]
    · simp [hown, hfind]
  · intro user vehicleId travelerEmail travelerId travelers db vid
      hv he hp hpos hauth hfind
    refine ⟨⟨db.nextId, vid.toNat, travelerEmail.getD "",
      (match travelerId with
       | some t => some t
       | none => (travelers.find? (fun t =>
           t.email == travelerEmail.getD "")).map (fun t => t.id)),
      true, none⟩, ?_⟩
    simp only [postCheckIn, hv, he, Bool.not_true, Bool.false_or,
      Bool.false_eq_true, if_false, hp]
    rw [if_neg (show ¬(vid ≤ 0) by omega)]
    rcases hauth with hadm | hown
    · simp [hadm, hfind]
    · simp [hown, hfind]
  · intro user cid now db r hfind hauth
    simp only [checkout, hfind]
    rcases hauth with hadm | hown
    · simp [hadm]
    · simp [hown]
  · intro user vehicleId travelerEmail travelerId travelers db hinv
    unfold postCheckIn
    dsimp only
    repeat' split
    all_goals try exact hinv
    all_goals
      apply noDupActive_append_singleton _ _ hinv
      rw [List.all_eq_true]
      intro r hr
      cases hact : r.active <;>
        simp_all [conflictCI, List.find?_eq_none]
      all_goals
        rename_i hall
        refine or_iff_not_imp_left.mpr fun hv hB => ?_
        have hfalse := hall r hr (not_not.mp hv) hB
        simp [hfalse] at hact
  · intro user cid now db hinv
    unfold checkout
    split
    · exact hinv
    · split
      · exact hinv
      · exact noDupActive_map_deactivate db.rows cid now hinv

/-- C6 witness: with one active check-in for (vehicle 3, the user), a
second attempt gets 400 "Already checked in" and the table is
unchanged. -/
theorem c6_checkin_uniqueness_witness :
    postCheckIn ⟨1, "asha@example.com", false⟩ (some "3")
        (some "asha@example.com") none []
        ⟨[⟨1, 3, "asha@example.com", some 1, true, none⟩], 2⟩ =
      (.err 400 "Already checked in",
       ⟨[⟨1, 3, "asha@example.com", some 1, true, none⟩], 2⟩) :=
  c6_checkin_uniqueness.1 ⟨1, "asha@example.com", false⟩ (some "3")
    (some "asha@example.com") none []
    ⟨[⟨1, 3, "asha@example.com", some 1, true, none⟩], 2⟩ 3
    ⟨1, 3, "asha@example.com", some 1, true, none⟩
    rfl rfl (by rfl) (by decide) (Or.inr rfl) (by rfl)

/-- The upsert's UPDATE branch rewrites only `vehicle_id`, so a map
that keeps every row's (date, traveler) key keeps `uniquePairs`. -/
theorem uniquePairs_map_keep (f : AllotmentRow → AllotmentRow)
    (hf : ∀ a, (f a).date = a.date ∧ (f a).traveler_id = a.traveler_id) :
    ∀ db : List AllotmentRow, uniquePairs (List.map f db) = uniquePairs db
  | [] => rfl
  | a :: rest => by
      have hfun : (fun b => !((f a).date == b.date &&
          (f a).traveler_id == b.traveler_id)) ∘ f =
          fun b => !(a.date == b.date && a.traveler_id == b.traveler_id) := by
        funext b
        simp [Function.comp, (hf a).1, (hf a).2, (hf b).1, (hf b).2]
      simp only [List.map_cons, uniquePairs, List.all_map, hfun,
        uniquePairs_map_keep f hf rest]

/-- Appending a row whose (date, traveler) pair is fresh keeps the
pairwise-uniqueness predicate. -/
theorem uniquePairs_append_one (x : AllotmentRow) :
    ∀ db : List AllotmentRow, uniquePairs db = true →
      db.all (fun a =>
        !(a.date == x.date && a.traveler_id == x.traveler_id)) = true →
      uniquePairs (db ++ [x]) = true
  | [], _, _ => by simp [uniquePairs]
  | a :: rest, h1, h2 => by
      simp only [uniquePairs, Bool.and_eq_true] at h1
      simp only [List.all_cons, Bool.and_eq_true] at h2
      simp only [List.cons_append, uniquePairs, List.append_eq,
        List.all_append, List.all_cons, List.all_nil, Bool.and_true,
        Bool.and_eq_true]
      exact ⟨⟨h1.1, h2.1⟩, uniquePairs_append_one x rest h1.2 h2.2⟩

/-- The allotment upsert preserves at-most-one-row-per-(date, traveler). -/
theorem uniquePairs_upsert (db : List AllotmentRow) (d : String)
    (tid vid : Int) (h : uniquePairs db = true) :
    uniquePairs (upsertAllotment db d tid vid) = true := by
  unfold upsertAllotment
  split
  · rw [uniquePairs_map_keep]
    · exact h
    · intro a
      by_cases hc : (a.date == d && a.traveler_id == tid) = true <;>
        simp [hc]
  · rename_i hany
    apply uniquePairs_append_one ⟨d, tid, vid⟩ db h
    rw [List.all_eq_true]
    intro a ha
    have hall : ∀ b ∈ db, ¬(b.date == d && b.traveler_id == tid) = true := by
      simpa [List.any_eq_true] using hany
    have hna := hall a ha
    cases hc : (a.date == d && a.traveler_id == tid) <;> simp_all

/-- C7 counterexample: a `travelerId` of "12.7" is not a finite
integer, yet the route accepts it with 201 — `parseInt` truncates it to
12 and that truncated id is stored — instead of the 400 the claim
requires for non-integer ids. -/
theorem c7_counterexample :
    (postAllotment (some "2025-01-01") (some "12.7") (some "3") []).1.1 =
      201 ∧
    (postAllotment (some "2025-01-01") (some "12.7") (some "3") []).2 =
      [⟨"2025-01-01", 12, 3⟩] := by
  constructor <;> rfl

/-- C7 (amended): `POST /api/vehicles/allotments` answers 400 exactly
when the date fails to normalize or `parseInt` of either id yields NaN
(fractional ids such as "12.7" are truncated, not rejected); a 400
leaves the table unchanged; a successful save upserts: an existing
(date, traveler) pair gets its vehicle replaced with no new row added,
every row matching the pair afterwards carries the new vehicle, and
at-most-one-row-per-(date, traveler) is preserved by every request. -/
theorem c7_amended_allotment_upsert :
    (∀ (dateP travelerP vehicleP : Option String) (db : List AllotmentRow),
      (postAllotment dateP travelerP vehicleP db).1.1 = 400 ↔
        (normalizeDate dateP = none ∨ travelerP.bind jsParseInt = none ∨
         vehicleP.bind jsParseInt = none)) ∧
    (∀ (dateP travelerP vehicleP : Option String) (db : List AllotmentRow),
      (postAllotment dateP travelerP vehicleP db).1.1 = 400 →
      (postAllotment dateP travelerP vehicleP db).2 = db) ∧
    (∀ (dateP travelerP vehicleP : Option String) (db : List AllotmentRow)
        (d : String) (tid vid : Int),
      normalizeDate dateP = some d →
      travelerP.bind jsParseInt = some tid →
      vehicleP.bind jsParseInt = some vid →
      postAllotment dateP travelerP vehicleP db =
        ((201, "Vehicle allotment saved successfully"),
         upsertAllotment db d tid vid)) ∧
    (∀ (db : List AllotmentRow) (d : String) (tid vid : Int),
      db.any (fun a => a.date == d && a.traveler_id == tid) = true →
      (upsertAllotment db d tid vid).length = db.length) ∧
    (∀ (db : List AllotmentRow) (d : String) (tid vid : Int),
      (upsertAllotment db d tid vid).all (fun a =>
        !(a.date == d && a.traveler_id == tid) || a.vehicle_id == vid) =
        true) ∧
    (∀ (dateP travelerP vehicleP : Option String) (db : List AllotmentRow),
      uniquePairs db = true →
      uniquePairs (postAllotment dateP travelerP vehicleP db).2 = true) := by
  have hb : ∀ (p : Option String),
      (match p with
       | none => (none : Option Int)
       | some s => jsParseInt s) = p.bind jsParseInt := by
    intro p; cases p <;> rfl
  refine ⟨?_, ?_, ?_, ?_, ?_, ?_⟩
  · intro dateP travelerP vehicleP db
    unfold postAllotment
    rw [hb travelerP, hb vehicleP]
    rcases hnd : normalizeDate dateP with _ | d <;>
      rcases ht : travelerP.bind jsParseInt with _ | tid <;>
      rcases hv : vehicleP.bind jsParseInt with _ | vid <;>
      simp
  · intro dateP travelerP vehicleP db
    unfold postAllotment
    rw [hb travelerP, hb vehicleP]
    rcases hnd : normalizeDate dateP with _ | d <;>
      rcases ht : travelerP.bind jsParseInt with _ | tid <;>
      rcases hv : vehicleP.bind jsParseInt with _ | vid <;>
      simp
  · intro dateP travelerP vehicleP db d tid vid hd ht hv
    unfold postAllotment
    rw [hb travelerP, hb vehicleP, hd, ht, hv]
  · intro db d tid vid h
    simp only [upsertAllotment, if_pos h, List.length_map]
  · intro db d tid vid
    unfold upsertAllotment
    split
    · rw [List.all_eq_true]
      intro a ha
      rcases List.mem_map.mp ha with ⟨b, hb2, rfl⟩
      by_cases hc : (b.date == d && b.traveler_id == tid) = true <;>
        simp [hc]
    · rename_i hany
      rw [List.all_eq_true]
      intro a ha
      rcases List.mem_append.mp ha with hmem | hmem
      · have hall : ∀ b ∈ db,
            ¬(b.date == d && b.traveler_id == tid) = true := by
          simpa [List.any_eq_true] using hany
        have hna := hall a hmem
        cases hc : (a.date == d && a.traveler_id == tid) <;> simp_all
      · simp only [List.mem_singleton] at hmem
        subst hmem
        simp
  · intro dateP travelerP vehicleP db h
    unfold postAllotment
    rw [hb travelerP, hb vehicleP]
    rcases hnd : normalizeDate dateP with _ | d <;>
      rcases ht : travelerP.bind jsParseInt with _ | tid <;>
      rcases hv : vehicleP.bind jsParseInt with _ | vid <;>
      first
      | exact h
      | exact uniquePairs_upsert db d tid vid h

/-- C7 witness: concrete requests exercising the amended theorem — a
missing date yields the 400 equivalence, a save onto an existing
(2025-01-01, traveler 5) allotment routes through the upsert, keeps the
table at one row, and preserves pair uniqueness. -/
theorem c7_amended_witness :
    ((postAllotment none (some "1") (some "2") []).1.1 = 400 ↔
      (normalizeDate none = none ∨ (some "1").bind jsParseInt = none ∨
       (some "2").bind jsParseInt = none)) ∧
    postAllotment (some "2025-01-01") (some "5") (some "9")
        [⟨"2025-01-01", 5, 2⟩] =
      ((201, "Vehicle allotment saved successfully"),
       upsertAllotment [⟨"2025-01-01", 5, 2⟩] "2025-01-01" 5 9) ∧
    (upsertAllotment [⟨"2025-01-01", 5, 2⟩] "2025-01-01" 5 9).length =
      [(⟨"2025-01-01", 5, 2⟩ : AllotmentRow)].length ∧
    uniquePairs (postAllotment (some "2025-01-01") (some "5") (some "9")
      [⟨"2025-01-01", 5, 2⟩]).2 = true :=
  ⟨c7_amended_allotment_upsert.1 none (some "1") (some "2") [],
   c7_amended_allotment_upsert.2.2.1 (some "2025-01-01") (some "5")
     (some "9") [⟨"2025-01-01", 5, 2⟩] "2025-01-01" 5 9 (by rfl) (by rfl)
     (by rfl),
   c7_amended_allotment_upsert.2.2.2.1 [⟨"2025-01-01", 5, 2⟩]
     "2025-01-01" 5 9 (by rfl),
   c7_amended_allotment_upsert.2.2.2.2.2 (some "2025-01-01") (some "5")
     (some "9") [⟨"2025-01-01", 5, 2⟩] (by rfl)⟩

/-- C10: `GET /api/check-ins/my-status` always answers 200 to an
authenticated caller; every internal failure lands in the catch block,
which sends the safe default { vehicleId: null, active: false,
checkedIn: [], isCheckedIn: false }; and a day-wise allotment for the
resolved date overrides the traveler's base `vehicle_id` in the
reported status. -/
theorem c10_my_status_safe_default :
    (∀ (user : AuthUser) (dateParam : Option String) (today : String)
        (travelers : List TravelerRow) (allots : List AllotmentRow)
        (checkIns : List CheckInRow) (failAt : Option Nat),
      (myStatus user dateParam today travelers allots checkIns
        failAt).1 = 200) ∧
    (∀ (user : AuthUser) (dateParam : Option String) (today : String)
        (travelers : List TravelerRow) (allots : List AllotmentRow)
        (checkIns : List CheckInRow) (failAt : Option Nat),
      (myStatus user dateParam today travelers allots checkIns
        failAt).2.2 = true →
      (myStatus user dateParam today travelers allots checkIns
        failAt).2.1 = safeDefault) ∧
    (∀ (user : AuthUser) (dateParam : Option String) (today : String)
        (travelers : List TravelerRow) (allots : List AllotmentRow)
        (checkIns : List CheckInRow) (t : TravelerRow) (d : String)
        (a : AllotmentRow),
      travelers.find? (fun t2 => t2.email == user.email) = some t →
      t.id ≠ 0 →
      normalizeDateOrToday dateParam today = some d →
      allots.find? (fun a2 =>
        a2.traveler_id == (t.id : Int) && a2.date == d) = some a →
      a.vehicle_id ≠ 0 →
      (myStatus user dateParam today travelers allots checkIns
        none).2.1.vehicleId = some a.vehicle_id) := by
  refine ⟨?_, ?_, ?_⟩
  · intro user dateParam today travelers allots checkIns failAt
    unfold myStatus
    dsimp only
    repeat' split
    all_goals rfl
  · intro user dateParam today travelers allots checkIns failAt
    unfold myStatus
    dsimp only
    repeat' split
    all_goals intro h
    all_goals first
      | rfl
      | simp at h
  · intro user dateParam today travelers allots checkIns t d a
      ht htid hd ha hav
    unfold myStatus
    simp [ht, hd, ha, htid, hav]

/-- C10 witness: traveler 7 (base vehicle 2) with a day allotment onto
vehicle 9 for 2025-01-01 gets status 200 reporting vehicle 9; an
injected failure in the first query yields 200 with the safe
default. -/
theorem c10_my_status_witness :
    (myStatus ⟨7, "ravi@example.com", false⟩ (some "2025-01-01")
      "2025-01-02" [trav10] [⟨"2025-01-01", 7, 9⟩] [] none).1 = 200 ∧
    (myStatus ⟨7, "ravi@example.com", false⟩ (some "2025-01-01")
      "2025-01-02" [trav10] [⟨"2025-01-01", 7, 9⟩] []
      none).2.1.vehicleId = some 9 ∧
    (myStatus ⟨7, "ravi@example.com", false⟩ (some "2025-01-01")
      "2025-01-02" [trav10] [⟨"2025-01-01", 7, 9⟩] [] (some 0)).2.2 =
      true ∧
    (myStatus ⟨7, "ravi@example.com", false⟩ (some "2025-01-01")
      "2025-01-02" [trav10] [⟨"2025-01-01", 7, 9⟩] [] (some 0)).2.1 =
      safeDefault :=
  ⟨c10_my_status_safe_default.1 ⟨7, "ravi@example.com", false⟩
     (some "2025-01-01") "2025-01-02" [trav10] [⟨"2025-01-01", 7, 9⟩]
     [] none,
   c10_my_status_safe_default.2.2 ⟨7, "ravi@example.com", false⟩
     (some "2025-01-01") "2025-01-02" [trav10] [⟨"2025-01-01", 7, 9⟩]
     [] trav10 "2025-01-01" ⟨"2025-01-01", 7, 9⟩ (by rfl) (by decide)
     (by rfl) (by rfl) (by decide),
   rfl,
   c10_my_status_safe_default.2.1 ⟨7, "ravi@example.com", false⟩
     (some "2025-01-01") "2025-01-02" [trav10] [⟨"2025-01-01", 7, 9⟩]
     [] (some 0) rfl⟩

/-- A decimal digit is not JS whitespace. -/
theorem isDigit_not_ws {c : Char} (h : c.isDigit = true) : isJsWs c = false := by
  unfold isJsWs
  have h1 : c ≠ ' ' := isDigit_ne h (by decide)
  have h2 : c ≠ '\t' := isDigit_ne h (by decide)
  have h3 : c ≠ '\n' := isDigit_ne h (by decide)
  have h4 : c ≠ '\r' := isDigit_ne h (by decide)
  have h5 : c ≠ Char.ofNat 11 := isDigit_ne h (by decide)
  have h6 : c ≠ Char.ofNat 12 := isDigit_ne h (by decide)
  simp [h1, h2, h3, h4, h5, h6]

/-- `parseFloat` recovers the parts of a serialized number literal. -/
theorem jsParseFloat_ser (neg : Bool) (ip fp : List Char)
    (hw : (JVal.jnum neg ip fp).wf = true) :
    jsParseFloat (jsonStringify (JVal.jnum neg ip fp)) =
      some (neg, ip, fp) := by
  simp only [JVal.wf, Bool.and_eq_true, Bool.not_eq_true'] at hw
  obtain ⟨⟨hne, hall⟩, hfall⟩ := hw
  cases ip with
  | nil => simp [List.isEmpty] at hne
  | cons d ds =>
    have hd : d.isDigit = true := by
      simp only [List.all_cons, Bool.and_eq_true] at hall
      exact hall.1
    have hdw : isJsWs d = false := isDigit_not_ws hd
    have hdm : d ≠ '-' := isDigit_ne hd (by decide)
    have hdp : d ≠ '+' := isDigit_ne hd (by decide)
    cases fp with
    | nil =>
        have hscan : scanDigits (d :: ds) = (d :: ds, []) := by
          simpa using scanDigits_append (d :: ds) [] hall rfl
        cases neg with
        | true =>
            show jsParseFloat (String.mk ('-' :: ((d :: ds) ++ []))) = _
            unfold jsParseFloat
            simp [List.dropWhile, isJsWs, hscan]
        | false =>
            show jsParseFloat (String.mk ((d :: ds) ++ [])) = _
            unfold jsParseFloat
            simp [List.dropWhile, hdw, hdm, hdp, hscan]
    | cons e es =>
        have hscan : scanDigits (d :: (ds ++ '.' :: e :: es)) =
            (d :: ds, '.' :: e :: es) := by
          simpa using scanDigits_append (d :: ds) ('.' :: e :: es) hall
            (by rfl)
        have hscan2 : scanDigits (e :: es) = (e :: es, []) := by
          simpa using scanDigits_append (e :: es) [] hfall rfl
        cases neg with
        | true =>
            show jsParseFloat (String.mk ('-' :: ((d :: ds) ++
              '.' :: e :: es))) = _
            unfold jsParseFloat
            simp [List.dropWhile, isJsWs, hscan, hscan2]
        | false =>
            show jsParseFloat (String.mk ((d :: ds) ++ '.' :: e :: es)) = _
            unfold jsParseFloat
            simp [List.dropWhile, hdw, hdm, hdp, hscan, hscan2]

/-- In the UPDATE branch of the settings upsert, the stored row is the
one the key lookup finds. -/
theorem find_map_put (key sv st : String) :
    ∀ db : List SettingRow, db.any (fun r => r.setting_key == key) = true →
      ((db.map (fun r => if r.setting_key == key then
          (⟨key, sv, st⟩ : SettingRow) else r)).find?
        (fun r => r.setting_key == key)) = some ⟨key, sv, st⟩
  | [], h => by simp at h
  | r :: rest, h => by
      by_cases hr : (r.setting_key == key) = true
      · simp [List.find?, hr]
      · have h2 : rest.any (fun r => r.setting_key == key) = true := by
          simpa [List.any_cons, hr] using h
        simp only [List.map_cons, if_neg hr]
        rw [List.find?_cons_of_neg _ (by simpa using hr)]
        exact find_map_put key sv st rest h2

/-- In the INSERT branch of the settings upsert, the appended row is
the one the key lookup finds. -/
theorem find_append_put (key sv st : String) :
    ∀ db : List SettingRow, db.any (fun r => r.setting_key == key) = false →
      ((db ++ [(⟨key, sv, st⟩ : SettingRow)]).find?
        (fun r => r.setting_key == key)) = some ⟨key, sv, st⟩
  | [], _ => by simp [List.find?]
  | r :: rest, h => by
      have hr : (r.setting_key == key) = false := by
        simp only [List.any_cons, Bool.or_eq_false_iff] at h
        exact h.1
      have h2 : rest.any (fun r => r.setting_key == key) = false := by
        simp only [List.any_cons, Bool.or_eq_false_iff] at h
        exact h.2
      simp only [List.cons_append]
      rw [List.find?_cons_of_neg _ (by simp [hr])]
      exact find_append_put key sv st rest h2

/-- After the settings upsert, looking the key up yields the fresh
(value, type) pair. -/
theorem find_putSettingRows (key sv st : String) (db : List SettingRow) :
    (putSettingRows db key sv st).find? (fun r => r.setting_key == key) =
      some ⟨key, sv, st⟩ := by
  unfold putSettingRows
  split
  · rename_i h
    exact find_map_put key sv st db h
  · rename_i h
    exact find_append_put key sv st db (Bool.eq_false_iff.mpr h)

/-- C8: a PUT of a boolean, a finite number, or a JSON-serializable
object (or array, or null) under a key, read back by
`GET /api/settings/:key` or the identical `GET /api/settings/public/:key`,
yields the value unchanged together with its inferred type tag.
Strings are excluded: the number/boolean/json tags are inferred from
`typeof`, while a string keeps the caller-supplied type tag and a
string that spells a number under type "number" would not round-trip
as a string. -/
theorem c8_settings_roundtrip (key : String) (tp : Option String)
    (v : JVal) (db : List SettingRow) (hw : v.wf = true)
    (hs : ∀ s, v ≠ .jstr s) :
    getSetting key (putSetting key v tp db) =
      some (key, some v, (settingStore v tp).2) := by
  unfold getSetting putSetting
  cases v with
  | jstr s => exact absurd rfl (hs s)
  | jnull =>
      rw [show settingStore .jnull tp = (jsonStringify .jnull, "json")
        from rfl]
      rw [find_putSettingRows]
      rfl
  | jbool b =>
      cases b <;>
        · rw [find_putSettingRows]
          rfl
  | jnum neg ip fp =>
      rw [show settingStore (.jnum neg ip fp) tp =
        (jsonStringify (.jnum neg ip fp), "number") from rfl]
      rw [find_putSettingRows]
      simp only [Option.map_some]
      dsimp only [Option.map]
      unfold formatSettingValue
      rw [if_pos (show (("number" : String) == "number") = true from by
        decide)]
      rw [jsParseFloat_ser neg ip fp hw]
      rfl
  | jarr xs =>
      rw [show settingStore (.jarr xs) tp =
        (jsonStringify (.jarr xs), "json") from rfl]
      rw [find_putSettingRows]
      simp only [Option.map_some]
      dsimp only [Option.map]
      unfold formatSettingValue
      rw [if_neg (show ¬((("json" : String) == "number") = true) from by
        decide)]
      rw [if_neg (show ¬((("json" : String) == "boolean") = true) from by
        decide)]
      rw [if_pos (show (("json" : String) == "json") = true from by
        decide)]
      rw [jsonParse_jsonStringify (.jarr xs) hw]
  | jobj fs =>
      rw [show settingStore (.jobj fs) tp =
        (jsonStringify (.jobj fs), "json") from rfl]
      rw [find_putSettingRows]
      simp only [Option.map_some]
      dsimp only [Option.map]
      unfold formatSettingValue
      rw [if_neg (show ¬((("json" : String) == "number") = true) from by
        decide)]
      rw [if_neg (show ¬((("json" : String) == "boolean") = true) from by
        decide)]
      rw [if_pos (show (("json" : String) == "json") = true from by
        decide)]
      rw [jsonParse_jsonStringify (.jobj fs) hw]

/-- C8 witness: the number 42 PUT under "max_seats" into an empty
settings table reads back as 42 with type tag "number". -/
theorem c8_settings_roundtrip_witness :
    getSetting "max_seats" (putSetting "max_seats"
      (.jnum false ['4', '2'] []) none []) =
      some ("max_seats", some (.jnum false ['4', '2'] []),
        (settingStore (.jnum false ['4', '2'] []) none).2) :=
  c8_settings_roundtrip "max_seats" none (.jnum false ['4', '2'] []) []
    (by decide) (fun s h => JVal.noConfusion h)

/-- A JSON array of strings is well-formed. -/
theorem strElems_wf : ∀ rs : List String, (strElems rs).wf = true
  | [] => rfl
  | r :: tl => by simp [strElems, JElems.wf, JVal.wf, strElems_wf tl]

/-- `includes` on a parsed string array agrees with list membership. -/
theorem elemsContainsStr_strElems (e : String) :
    ∀ rs : List String, elemsContainsStr (strElems rs) e = rs.contains e
  | [] => rfl
  | r :: tl => by
      simp only [strElems, elemsContainsStr, List.contains, List.elem]
      by_cases h : r = e
      · subst h
        simp
      · have h1 : (r == e) = false := beq_eq_false_iff_ne.mpr h
        have h2 : (e == r) = false := beq_eq_false_iff_ne.mpr (Ne.symm h)
        simp only [h1, h2, Bool.false_or]
        exact elemsContainsStr_strElems e tl

/-- The serialized group-leader marker starts with an opening brace. -/
theorem glFullJson_head (rs : List String) :
    (glFullJson rs).data.head? = some lbrace := rfl

/-- The serialized group-leader marker is not the bare
`ALL_GROUP_LEADERS` marker string. -/
theorem glFullJson_ne_marker (rs : List String) :
    (glFullJson rs == "ALL_GROUP_LEADERS") = false := by
  apply beq_eq_false_iff_ne.mpr
  intro h
  exact absurd (h ▸ glFullJson_head rs) (by decide)

/-- `JSON.parse` recovers the group-leader marker object. -/
theorem jsonParse_glFullJson (rs : List String) :
    jsonParse (glFullJson rs) =
      some (.jobj (.cons "type" (.jstr "ALL_GROUP_LEADERS")
        (.cons "recipients" (.jarr (strElems rs)) .nil))) := by
  unfold glFullJson
  apply jsonParse_jsonStringify
  simp [JVal.wf, JMembers.wf, JElems.wf, strElems_wf rs]

/-- C5 counterexample: an admin creates an all-group-leaders
announcement whose `recipients` array holds only "a@x.com"; it is
stored as a `specific-traveler` row with a JSON marker value and is
pending; "b@y.com" is a vehicle's group leader; yet
`GET /api/announcements/user/b@y.com` delivers nothing, because the
stored code requires the group leader to also appear in the snapshotted
`recipients` array — contradicting the claim that group-leader variants
deliver to every vehicle's group leader. -/
theorem c5_counterexample :
    postAnnouncement ⟨some "all-group-leaders", none, some "Meet at 6",
        none, none, none, some ["a@x.com"]⟩ =
      .ok ⟨"specific-traveler", some (glFullJson ["a@x.com"]), "Meet at 6",
        "notification", "instant", none, false⟩ ∧
    pendingB ⟨"specific-traveler", some (glFullJson ["a@x.com"]),
        "Meet at 6", "notification", "instant", none, false⟩ 0 = true ∧
    ([(⟨1, "Bus A", 40, some "b@y.com", none, "active"⟩ : VehicleRow)].any
      (fun v => v.group_leader_email == some "b@y.com")) = true ∧
    getUserAnnouncements "b@y.com" []
      [⟨1, "Bus A", 40, some "b@y.com", none, "active"⟩]
      [⟨"specific-traveler", some (glFullJson ["a@x.com"]), "Meet at 6",
        "notification", "instant", none, false⟩] 0 = .ok [] := by
  refine ⟨?_, ?_, ?_, ?_⟩ <;> rfl

/-- C5 (amended): the user-announcements route delivers a pending
announcement according to its stored targeting — all-travelers rows go
to every valid e-mail; plain specific-traveler rows go exactly to the
stored e-mail (with no group-leader check for the specific-group-leader
variant, which stores the same shape); specific-vehicle rows go exactly
to travelers whose vehicle id equals the stored id; all-group-leaders
rows carrying a recipients marker go to callers that are group leaders
AND appear in the snapshotted recipients list; non-pending (sent or
future-scheduled) announcements are never delivered; and the POST
handler normalizes an all-group-leaders request into the
specific-traveler marker row these rules read. -/
theorem c5_amended_announcement_targeting :
    (∀ (msg : String) (rv : Option String) (st : Option Nat)
        (rs : List String),
      strTruthy (some msg) = true → (jsTrim msg).isEmpty = false →
      rs.isEmpty = false → ¬((glFullJson rs).length > 255) →
      postAnnouncement ⟨some "all-group-leaders", rv, some msg, none,
          none, st, some rs⟩ =
        .ok ⟨"specific-traveler", some (glFullJson rs), jsTrim msg,
          "notification", "instant", none, false⟩) ∧
    (∀ (email : String) (ts : List TravelerRow) (vs : List VehicleRow)
        (a : AnnRow) (now : Nat),
      emailOk email = true → pendingB a now = false →
      getUserAnnouncements email ts vs [a] now = .ok []) ∧
    (∀ (email : String) (ts : List TravelerRow) (vs : List VehicleRow)
        (a : AnnRow) (now : Nat),
      emailOk email = true → pendingB a now = true →
      a.recipient_type = "all-travelers" →
      (a.recipient_value = none ∨ a.recipient_value = some "ALL_TRAVELERS") →
      getUserAnnouncements email ts vs [a] now = .ok [a]) ∧
    (∀ (email : String) (ts : List TravelerRow) (vs : List VehicleRow)
        (a : AnnRow) (now : Nat) (v : String),
      emailOk email = true → pendingB a now = true →
      a.recipient_type = "specific-traveler" →
      a.recipient_value = some v →
      (v == "ALL_GROUP_LEADERS") = false → jsonParse v = none →
      getUserAnnouncements email ts vs [a] now =
        .ok (if v == email then [a] else [])) ∧
    (∀ (email : String) (ts : List TravelerRow) (vs : List VehicleRow)
        (a : AnnRow) (now : Nat) (v : String) (t : TravelerRow) (uv : Nat)
        (n : Int),
      emailOk email = true → pendingB a now = true →
      a.recipient_type = "specific-vehicle" →
      a.recipient_value = some v →
      ts.find? (fun t2 => t2.email == email) = some t →
      t.vehicle_id = some uv → uv ≠ 0 → v.isEmpty = false →
      jsParseInt v = some n →
      getUserAnnouncements email ts vs [a] now =
        .ok (if n == (uv : Int) then [a] else [])) ∧
    (∀ (email : String) (ts : List TravelerRow) (vs : List VehicleRow)
        (a : AnnRow) (now : Nat) (rs : List String),
      emailOk email = true → pendingB a now = true →
      a.recipient_type = "specific-traveler" →
      a.recipient_value = some (glFullJson rs) →
      getUserAnnouncements email ts vs [a] now =
        .ok (if (vs.find? (fun v2 =>
              v2.group_leader_email == some email)).isSome &&
            rs.contains email then [a] else [])) := by
  refine ⟨?_, ?_, ?_, ?_, ?_, ?_⟩
  · intro msg rv st rs hm htrim hrs hlen
    simp only [postAnnouncement, hm, Bool.not_true, Bool.false_or]
    simp [hrs, htrim, hlen,
      show strTruthy (some "all-group-leaders") = true from by decide]
  · intro email ts vs a now he hp
    simp [getUserAnnouncements, he, List.filter, hp]
  · intro email ts vs a now he hp hrt hv
    rcases hv with hv | hv <;>
      simp [getUserAnnouncements, he, List.filter, hp, shouldReceive,
        hrt, hv]
  · intro email ts vs a now v he hp hrt hv hvm hvp
    have hvm2 : v ≠ "ALL_GROUP_LEADERS" := by simpa using hvm
    by_cases hve : v = email
    · subst hve
      simp [getUserAnnouncements, he, List.filter, hp, shouldReceive,
        hrt, hv, hvm, hvm2, hvp]
    · have hve2 : (v == email) = false := beq_eq_false_iff_ne.mpr hve
      simp [getUserAnnouncements, he, List.filter, hp, shouldReceive,
        hrt, hv, hvm, hvm2, hvp, hve, hve2]
  · intro email ts vs a now v t uv n he hp hrt hv ht htv huv hve hpi
    by_cases hn : n = (uv : Int)
    · subst hn
      simp [getUserAnnouncements, he, List.filter, hp, shouldReceive,
        hrt, hv, ht, htv, huv, hve, hpi]
    · have hn2 : (n == (uv : Int)) = false := beq_eq_false_iff_ne.mpr hn
      simp [getUserAnnouncements, he, List.filter, hp, shouldReceive,
        hrt, hv, ht, htv, huv, hve, hpi, hn, hn2]
  · intro email ts vs a now rs he hp hrt hv
    have hne : glFullJson rs ≠ "ALL_GROUP_LEADERS" := by
      simpa using glFullJson_ne_marker rs
    by_cases h3 : email ∈ rs <;>
      cases h2 : (vs.find? (fun v2 =>
          v2.group_leader_email == some email)).isSome <;>
        simp [getUserAnnouncements, he, List.filter, hp, shouldReceive,
          hrt, hv, hne, jsonParse_glFullJson, lookupLast,
          elemsContainsStr_strElems, h2, h3]

/-- C5 witness: an all-group-leaders announcement listing "b@y.com" is
normalized by the POST handler into the marker row, and "b@y.com" —
group leader of Bus A and listed — receives it. -/
theorem c5_amended_witness :
    postAnnouncement ⟨some "all-group-leaders", none, some "Hi", none,
        none, none, some ["b@y.com"]⟩ =
      .ok ⟨"specific-traveler", some (glFullJson ["b@y.com"]), "Hi",
        "notification", "instant", none, false⟩ ∧
    getUserAnnouncements "b@y.com" []
      [⟨1, "Bus A", 40, some "b@y.com", none, "active"⟩]
      [⟨"specific-traveler", some (glFullJson ["b@y.com"]), "Hi",
        "notification", "instant", none, false⟩] 0 =
      .ok (if (([(⟨1, "Bus A", 40, some "b@y.com", none, "active"⟩ :
            VehicleRow)].find? (fun v2 =>
            v2.group_leader_email == some "b@y.com")).isSome &&
          (["b@y.com"].contains "b@y.com")) then
        [⟨"specific-traveler", some (glFullJson ["b@y.com"]), "Hi",
          "notification", "instant", none, false⟩]
      else []) :=
  ⟨c5_amended_announcement_targeting.1 "Hi" none none ["b@y.com"]
     (by decide) (by decide) (by decide) (by decide),
   c5_amended_announcement_targeting.2.2.2.2.2 "b@y.com" []
     [⟨1, "Bus A", 40, some "b@y.com", none, "active"⟩]
     ⟨"specific-traveler", some (glFullJson ["b@y.com"]), "Hi",
       "notification", "instant", none, false⟩ 0 ["b@y.com"]
     (by decide) (by decide) rfl rfl⟩

/-- C9 witness: the body of a concrete successful login for traveler 7
carries no password_hash key. -/
theorem c9_password_hash_never_exposed_witness :
    "password_hash" ∉ (loginTravelerBody trav10).map Prod.fst :=
  c9_password_hash_never_exposed.2.2 [trav10]
    (fun p h => h == "hash:" ++ p) (some "tok") (some "ravi@example.com")
    (some "pw7") ⟨7, "ravi@example.com", false, "tok", "7d"⟩
    (loginTravelerBody trav10) "7d" (by rfl)

end Yatra
